import Mathlib

/-!
# Respawn scheduling, active objects and grid unloading of `Map`

A shallow embedding of the parts of `src/server/game/Maps/Map.h` that deal with
respawn records (`RespawnInfo`, `CompareRespawnInfo`, `GetRespawnTime`,
`RemoveRespawnTime`), with the set of active non-player objects
(`AddToActiveHelper`, `RemoveFromActiveHelper`), with grid unloading, grid
identifiers, `Visit` and the unload timer (`CanUnload`); of the member functions
of `src/server/game/Entities/AreaTrigger/AreaTrigger.cpp`; and of
`_ModifyUInt32`, `Player::ApplySpellPowerBonus`, `CalculateDiminishingReturns`
and `Player::CalculateMinMaxDamage` of
`src/server/game/Entities/Unit/StatSystem.cpp`, the last two read over the
rational numbers.

Functions defined in files other than these are parameters of the functions
that call them, gathered in a structure of functions on the state they work on.
Machine integers are `Nat` and `Int`, reduced where the code can wrap.

Pointers are addresses (`Nat`); the objects they designate live in a memory
that maps every address to a `RespawnInfo`.  A failed `ASSERT` aborts the
server: functions that can reach one return an `Option`, `none` standing for
the abort.
-/

namespace TrinityCore

/-! ## Respawn records -/

/-- Modelled from the spec: the enum `SpawnObjectType` ("category (small enum)")
is declared in `SpawnData.h`, which is not among the translated sources.  Its
values are kept as the underlying integers, the comparison in
`CompareRespawnInfo` being the one of these integers. -/
abbrev SpawnObjectType : Type := Nat

/-- Enumerator `SPAWN_TYPE_CREATURE`, the first one of `SpawnObjectType`. -/
def SPAWN_TYPE_CREATURE : SpawnObjectType := 0

/-- Enumerator `SPAWN_TYPE_GAMEOBJECT`, the second one of `SpawnObjectType`. -/
def SPAWN_TYPE_GAMEOBJECT : SpawnObjectType := 1

/-- The struct `RespawnInfo` of `Map.h`: `type` (the integer value of a
`SpawnObjectType`), `spawnId`, `entry`, `respawnTime` (a signed `time_t`) and
`gridId`. -/
structure RespawnInfo where
  type : Nat
  spawnId : Nat
  entry : Nat
  respawnTime : Int
  gridId : Nat
deriving DecidableEq, Repr

/-- A `RespawnInfo*`: the address of a record. -/
abbrev RespawnInfoPtr := Nat

/-- The records in memory, by address. -/
abbrev Memory := RespawnInfoPtr → RespawnInfo

/-- The comparator `CompareRespawnInfo::operator()` of `Map.h`, on two pointers:
`some r` when it returns `r`, `none` when the assertion
"Duplicate respawn entry" fails. -/
def CompareRespawnInfo (mem : Memory) (a b : RespawnInfoPtr) : Option Bool :=
  if a = b then
    some false
  else if (mem a).respawnTime ≠ (mem b).respawnTime then
    some (decide ((mem a).respawnTime > (mem b).respawnTime))
  else if (mem a).spawnId ≠ (mem b).spawnId then
    some (decide ((mem a).spawnId < (mem b).spawnId))
  else if (mem a).type ≠ (mem b).type then
    some (decide ((mem a).type < (mem b).type))
  else
    none

/-- The records of a collection have pairwise distinct `(type, spawnId)`: two
different records never agree on both. -/
def DistinctKeys (mem : Memory) (l : List RespawnInfoPtr) : Prop :=
  ∀ a ∈ l, ∀ b ∈ l, a ≠ b →
    ¬ ((mem a).type = (mem b).type ∧ (mem a).spawnId = (mem b).spawnId)

instance (mem : Memory) (l : List RespawnInfoPtr) : Decidable (DistinctKeys mem l) :=
  inferInstanceAs (Decidable (∀ a ∈ l, ∀ b ∈ l, a ≠ b →
    ¬ ((mem a).type = (mem b).type ∧ (mem a).spawnId = (mem b).spawnId)))

/-! ## Priority extraction

`_respawnTimes` is a priority queue of `RespawnInfo*` ordered by
`CompareRespawnInfo`.  Such a queue hands out the comparator-greatest element:
the record `r` for which `compare(r, s)` is false for every other record `s`.
The queue is kept as the list of its records. -/

/-- Whether `r` is the record a priority queue holding `l` hands out: the
comparator ranks `r` below no record of `l`. -/
def isTop (mem : Memory) (l : List RespawnInfoPtr) (r : RespawnInfoPtr) : Bool :=
  l.all (fun s => CompareRespawnInfo mem r s == some false)

/-- The record at the top of the queue, if there is one. -/
def top (mem : Memory) (l : List RespawnInfoPtr) : Option RespawnInfoPtr :=
  l.find? (isTop mem l)

/-- Repeated extraction: the top is taken and removed, at most `n` times; the
result lists the records in the order they are extracted. -/
def extractAll (mem : Memory) : Nat → List RespawnInfoPtr → List RespawnInfoPtr
  | 0, _ => []
  | n + 1, l =>
    match top mem l with
    | none => []
    | some r => r :: extractAll mem n (l.erase r)

/-- The due-times of a list of records. -/
def dueTimes (mem : Memory) (l : List RespawnInfoPtr) : List Int :=
  l.map (fun p => (mem p).respawnTime)

/-! ## The respawn indexes of `Map` -/

/-- The container `RespawnInfoMap`, an
`std::unordered_map<ObjectGuid::LowType, RespawnInfo*>`: the pointer stored for
a spawnId, `none` when the map has no entry for it. -/
abbrev RespawnInfoMap : Type := Nat → Option RespawnInfoPtr

/-- The members of `class Map` that the respawn bookkeeping reads and writes:
the memory holding the records, the queue `_respawnTimes` and the two indexes
by spawnId.  `nextAddress` is the address the next `new RespawnInfo` gets, and
`savedRespawns` are the records handed to the database. -/
structure Map where
  mem : Memory
  _respawnTimes : List RespawnInfoPtr
  _creatureRespawnTimesBySpawnId : RespawnInfoMap
  _gameObjectRespawnTimesBySpawnId : RespawnInfoMap
  nextAddress : RespawnInfoPtr
  savedRespawns : List RespawnInfo

/-- `Map::GetRespawnMapForType`: the index of a spawn type.  Every other value
of `type` runs into `ASSERT(false)`. -/
def GetRespawnMapForType (m : Map) (type : Nat) : Option RespawnInfoMap :=
  if type = SPAWN_TYPE_CREATURE then
    some m._creatureRespawnTimesBySpawnId
  else if type = SPAWN_TYPE_GAMEOBJECT then
    some m._gameObjectRespawnTimesBySpawnId
  else
    none

/-- `Map::GetRespawnTime`: 0 when the index of the type has no entry for
`spawnId`, else the `respawnTime` of the record found. -/
def GetRespawnTime (m : Map) (type : Nat) (spawnId : Nat) : Option Int :=
  match GetRespawnMapForType m type with
  | none => none
  | some map =>
    match map spawnId with
    | none => some 0
    | some it => some (m.mem it).respawnTime

/-- `Map::GetCreatureRespawnTime`. -/
def GetCreatureRespawnTime (m : Map) (spawnId : Nat) : Option Int :=
  GetRespawnTime m SPAWN_TYPE_CREATURE spawnId

/-- `Map::GetGORespawnTime`. -/
def GetGORespawnTime (m : Map) (spawnId : Nat) : Option Int :=
  GetRespawnTime m SPAWN_TYPE_GAMEOBJECT spawnId

/-- Modelled from the spec: `Map::AddRespawnInfo` is declared in `Map.h` and
defined in `Map.cpp`, which is not among the translated sources.  The spec says:
"`AddRespawnInfo(record)` — rejects (fatal) if a record for the same spawn
identity already exists; otherwise inserts into both indexes and persists the
record."  The first component is `none` for the fatal rejection and `some true`
for an insertion; the second one is the map at that point.  The index by
spawnId is the one `GetRespawnMapForType` gives. -/
def AddRespawnInfo (m : Map) (info : RespawnInfo) : Option Bool × Map :=
  match GetRespawnMapForType m info.type with
  | none => (none, m)
  | some bySpawnIdMap =>
    match bySpawnIdMap info.spawnId with
    | some _ => (none, m)
    | none =>
      let ri := m.nextAddress
      let inserted : RespawnInfoMap := fun k => if k = info.spawnId then some ri else bySpawnIdMap k
      (some true,
        { mem := fun p => if p = ri then info else m.mem p
          _respawnTimes := ri :: m._respawnTimes
          _creatureRespawnTimesBySpawnId :=
            if info.type = SPAWN_TYPE_CREATURE then inserted else m._creatureRespawnTimesBySpawnId
          _gameObjectRespawnTimesBySpawnId :=
            if info.type = SPAWN_TYPE_CREATURE then m._gameObjectRespawnTimesBySpawnId else inserted
          nextAddress := ri + 1
          savedRespawns := info :: m.savedRespawns })

/-- A `CharacterDatabaseTransaction`: a handle, `none` for `nullptr`. -/
abbrev CharacterDatabaseTransaction : Type := Option Nat

/-- The member functions that `Map::RemoveRespawnTime` calls.  They are declared
in `Map.h` and defined in `Map.cpp`, which is not among the translated sources,
so they are parameters here; `σ` is the state of the map they work on, and a
null pointer returned by `GetRespawnInfo` is `none`. -/
structure RespawnBackend (σ : Type) where
  GetRespawnInfo : σ → Nat → Nat → Option RespawnInfoPtr
  DeleteRespawnInfo : σ → RespawnInfoPtr → CharacterDatabaseTransaction → σ
  DeleteRespawnInfoFromDB : σ → Nat → Nat → CharacterDatabaseTransaction → σ

/-- `Map::RemoveRespawnTime` of `Map.h`. -/
def RemoveRespawnTime {σ : Type} (B : RespawnBackend σ) (s : σ) (type : Nat) (spawnId : Nat)
    (dbTrans : CharacterDatabaseTransaction) (alwaysDeleteFromDB : Bool) : σ :=
  match B.GetRespawnInfo s type spawnId with
  | some info => B.DeleteRespawnInfo s info dbTrans
  | none =>
    if alwaysDeleteFromDB then
      B.DeleteRespawnInfoFromDB s type spawnId dbTrans
    else
      s

/-- A call made by `RemoveRespawnTime`. -/
inductive RespawnCall where
  | DeleteRespawnInfo (info : RespawnInfoPtr) (dbTrans : CharacterDatabaseTransaction)
  | DeleteRespawnInfoFromDB (type : Nat) (spawnId : Nat) (dbTrans : CharacterDatabaseTransaction)
deriving DecidableEq, Repr

/-- A backend that only records the calls it receives; `find` is its lookup. -/
def recordingBackend (find : Nat → Nat → Option RespawnInfoPtr) :
    RespawnBackend (List RespawnCall) where
  GetRespawnInfo := fun _ type spawnId => find type spawnId
  DeleteRespawnInfo := fun calls info dbTrans => calls ++ [RespawnCall.DeleteRespawnInfo info dbTrans]
  DeleteRespawnInfoFromDB := fun calls type spawnId dbTrans =>
    calls ++ [RespawnCall.DeleteRespawnInfoFromDB type spawnId dbTrans]

/-! ## The set of active non-player objects -/

/-- A `WorldObject*`: the address of an object. -/
abbrev WorldObjectPtr : Type := Nat

/-- The ordered container `std::set<WorldObject*>` (`ActiveNonPlayers`): its
elements in ascending order. -/
abbrev ActiveNonPlayers : Type := List Nat

/-- The invariant of the container: strictly ascending, so without repetition. -/
def isSet (l : ActiveNonPlayers) : Prop := l.Pairwise (fun x y => x < y)

instance (l : ActiveNonPlayers) : Decidable (isSet l) :=
  inferInstanceAs (Decidable (l.Pairwise (fun x y => x < y)))

/-- The member `std::set::insert`: the element goes to its place in the order,
and nothing is inserted when an equal element is met. -/
def setInsert (x : Nat) : ActiveNonPlayers → ActiveNonPlayers
  | [] => [x]
  | y :: ys =>
    if x < y then x :: y :: ys
    else if x = y then y :: ys
    else y :: setInsert x ys

/-- The member `std::set::find`: an iterator on the element, `none` for `end()`. -/
def setFind (x : Nat) (l : ActiveNonPlayers) : Option Nat :=
  if x ∈ l then some x else none

/-- The member `std::set::erase`, by key or by iterator on `x`. -/
def setErase (x : Nat) (l : ActiveNonPlayers) : ActiveNonPlayers :=
  l.filter (fun y => decide (y ≠ x))

/-- The increment of an iterator on `x`: the next greater element, `none` for
`end()`. -/
def setNext (x : Nat) (l : ActiveNonPlayers) : Option Nat :=
  (l.filter (fun y => decide (x < y))).head?

/-- The members `m_activeNonPlayers` and `m_activeNonPlayersIter` of `class Map`;
an iterator is the element it designates, `none` for `end()`. -/
structure ActiveObjects where
  m_activeNonPlayers : ActiveNonPlayers
  m_activeNonPlayersIter : Option Nat
deriving DecidableEq, Repr

/-- `Map::AddToActiveHelper`. -/
def AddToActiveHelper (s : ActiveObjects) (obj : Nat) : ActiveObjects :=
  { s with m_activeNonPlayers := setInsert obj s.m_activeNonPlayers }

/-- `Map::RemoveFromActiveHelper`. -/
def RemoveFromActiveHelper (s : ActiveObjects) (obj : Nat) : ActiveObjects :=
  if s.m_activeNonPlayersIter ≠ none then
    match setFind obj s.m_activeNonPlayers with
    | none => s
    | some itr =>
      { m_activeNonPlayers := setErase itr s.m_activeNonPlayers
        m_activeNonPlayersIter :=
          if some itr = s.m_activeNonPlayersIter then setNext itr s.m_activeNonPlayers
          else s.m_activeNonPlayersIter }
  else
    { s with m_activeNonPlayers := setErase obj s.m_activeNonPlayers }

/-! ## Grid unloading -/

/-- Modelled from the spec: the state of a cell, "state ∈ {Unloaded, Loaded,
MarkedForUnload}".  The grid types (`NGrid`, its state and its unload lock) are
not among the translated sources. -/
inductive CellState where
  | Unloaded
  | Loaded
  | MarkedForUnload
deriving DecidableEq, Repr

/-- Modelled from the spec: a cell of the grid, with its state, its
"independent unload-expiry countdown", the number of players in it, the
"reference-counted pin" of `MarkNoUnload` / `UnmarkNoUnload`, and the number of
Activated entities it houses.  `NGrid` is not among the translated sources. -/
structure Cell where
  state : CellState
  expiry : Nat
  players : Nat
  pinCount : Nat
  activeEntities : Nat
deriving DecidableEq, Repr

/-- Modelled from the spec: `Map::GetUnloadLock` reads `NGrid::getUnloadLock`,
which is not among the translated sources; the lock is set when the pin count is
positive ("a positive pin count"). -/
def GetUnloadLock (c : Cell) : Bool := decide (0 < c.pinCount)

/-- Modelled from the spec: `Map::GridMarkNoUnload`, declared in `Map.h` only,
takes a pin ("reference-counted pin preventing a cell ... from unloading"). -/
def GridMarkNoUnload (c : Cell) : Cell := { c with pinCount := c.pinCount + 1 }

/-- Modelled from the spec: `Map::ActiveObjectsNearGrid`, declared in `Map.h`
only: whether the cell houses an Activated entity ("a cell housing an active
member is implicitly ineligible for unload"). -/
def ActiveObjectsNearGrid (c : Cell) : Bool := decide (0 < c.activeEntities)

/-- Modelled from the spec: `Map::UnloadGrid`, declared in `Map.h` only, as it
is called on expiry: a cell "with no players, no pinned lock, and no active
non-player interest transitions to Unloaded"; the result tells whether it did. -/
def UnloadGrid (c : Cell) : Bool × Cell :=
  if c.players = 0 ∧ GetUnloadLock c = false ∧ ActiveObjectsNearGrid c = false then
    (true, { c with state := CellState.Unloaded })
  else
    (false, c)

/-- Modelled from the spec: "`Tick(elapsed)` — decrements each loaded cell's
expiry timer; a cell reaching zero with no players, no pinned lock, and no
active non-player interest transitions to Unloaded".  The grid state machine
that drives `UnloadGrid` is not among the translated sources. -/
def Tick (c : Cell) (elapsed : Nat) : Cell :=
  if c.state = CellState.Unloaded then
    c
  else
    let ticked : Cell := { c with expiry := c.expiry - elapsed }
    if ticked.expiry = 0 then (UnloadGrid ticked).2 else ticked

/-- A run of ticks, one for each elapsed time of the list. -/
def runTicks (c : Cell) (elapsed : List Nat) : Cell :=
  elapsed.foldl Tick c

/-! ## Machine integers -/

/-- The value of a mathematical integer as an `int32` (two's complement). -/
def toInt32 (n : Int) : Int := (n + 2147483648) % 4294967296 - 2147483648

/-- The value of a mathematical integer as a `uint32`. -/
def toUInt32 (n : Int) : Nat := (n % 4294967296).toNat

/-! ## Grid identifiers and `Map::Visit` -/

/-- The type `GridCoord` (a `CoordPair` of `GridDefines.h`): the coordinates of a
grid. -/
structure GridCoord where
  x_coord : Nat
  y_coord : Nat
deriving DecidableEq, Repr

/-- The coordinate that `Map::IsGridLoaded(uint32 gridId)` builds from a grid
id: `GridCoord(gridId % MAX_NUMBER_OF_GRIDS, gridId / MAX_NUMBER_OF_GRIDS)`.  The
constant `MAX_NUMBER_OF_GRIDS` of `GridDefines.h` is the parameter `N`. -/
def gridCoordOfId (N : Nat) (gridId : Nat) : GridCoord :=
  { x_coord := gridId % N, y_coord := gridId / N }

/-- `Map::IsGridLoaded(uint32 gridId)`; the overload on a `GridCoord`, which is
declared in `Map.h` only, is the parameter `loaded`. -/
def IsGridLoaded (N : Nat) (loaded : GridCoord → Bool) (gridId : Nat) : Bool :=
  loaded (gridCoordOfId N gridId)

/-- `Map::getNGrid`: the entry `i_grids[x][y]`, `none` when the assertion
`x < MAX_NUMBER_OF_GRIDS && y < MAX_NUMBER_OF_GRIDS` fails. -/
def getNGrid {γ : Type} (N : Nat) (i_grids : Nat → Nat → γ) (x y : Nat) : Option γ :=
  if x < N ∧ y < N then some (i_grids x y) else none

/-- What `Map::Visit` works with and `Map.h` only declares or includes: the
constant `MAX_NUMBER_OF_GRIDS`, the accessors of the type `Cell` (`κ`), the
array `i_grids` of the map (`σ` is the state of the map, `γ` a grid), the
overload of `IsGridLoaded` on a `GridCoord`, `EnsureGridLoaded`, and
`NGrid::VisitGrid`, which runs the visitor (`ν`) on one cell of a grid. -/
structure VisitEnv (σ κ γ ν : Type) where
  MAX_NUMBER_OF_GRIDS : Nat
  GridX : κ → Nat
  GridY : κ → Nat
  CellX : κ → Nat
  CellY : κ → Nat
  NoCreate : κ → Bool
  i_grids : σ → Nat → Nat → γ
  IsGridLoaded : σ → GridCoord → Bool
  EnsureGridLoaded : σ → κ → σ
  VisitGrid : σ → γ → Nat → Nat → ν → σ

/-- `Map::Visit`: the state of the map afterwards, `none` when the assertion of
`getNGrid` fails. -/
def Visit {σ κ γ ν : Type} (E : VisitEnv σ κ γ ν) (s : σ) (cell : κ) (visitor : ν) : Option σ :=
  let x := E.GridX cell
  let y := E.GridY cell
  let cell_x := E.CellX cell
  let cell_y := E.CellY cell
  if !E.NoCreate cell || E.IsGridLoaded s { x_coord := x, y_coord := y } then
    let s1 := E.EnsureGridLoaded s cell
    match getNGrid E.MAX_NUMBER_OF_GRIDS (E.i_grids s1) x y with
    | none => none
    | some grid => some (E.VisitGrid s1 grid cell_x cell_y visitor)
  else
    some s

/-- A call seen by the recording environment of `Visit`. -/
inductive VisitCall where
  | EnsureGridLoaded (gridX gridY : Nat)
  | VisitGrid (gridX gridY cellX cellY : Nat)
deriving DecidableEq, Repr

/-- A cell as its four coordinates and its `nocreate` flag. -/
structure CellData where
  grid_x : Nat
  grid_y : Nat
  cell_x : Nat
  cell_y : Nat
  nocreate : Bool
deriving DecidableEq, Repr

/-- An environment of `Visit` that records the calls; the grids listed in
`loaded` are the loaded ones and a grid is named by its coordinates. -/
def recordingVisitEnv (N : Nat) (loaded : List (Nat × Nat)) :
    VisitEnv (List VisitCall) CellData (Nat × Nat) Unit where
  MAX_NUMBER_OF_GRIDS := N
  GridX := fun c => c.grid_x
  GridY := fun c => c.grid_y
  CellX := fun c => c.cell_x
  CellY := fun c => c.cell_y
  NoCreate := fun c => c.nocreate
  i_grids := fun _ x y => (x, y)
  IsGridLoaded := fun _ p => decide ((p.x_coord, p.y_coord) ∈ loaded)
  EnsureGridLoaded := fun calls c => calls ++ [VisitCall.EnsureGridLoaded c.grid_x c.grid_y]
  VisitGrid := fun calls g cx cy _ => calls ++ [VisitCall.VisitGrid g.1 g.2 cx cy]

/-! ## The unload timer of `Map` -/

/-- `Map::CanUnload`: the value returned and `m_unloadTimer` afterwards; the
subtraction is the one of `uint32`. -/
def CanUnload (m_unloadTimer : Nat) (diff : Nat) : Bool × Nat :=
  if m_unloadTimer = 0 then
    (false, m_unloadTimer)
  else if m_unloadTimer ≤ diff then
    (true, m_unloadTimer)
  else
    (false, toUInt32 ((m_unloadTimer : Int) - (diff : Int)))

/-- Successive calls of `Map::CanUnload`, one for each diff of the list: for
each call, the timer before it and the value it returns. -/
def CanUnloadRun (m_unloadTimer : Nat) : List Nat → List (Nat × Bool)
  | [] => []
  | diff :: diffs =>
    (m_unloadTimer, (CanUnload m_unloadTimer diff).1) ::
      CanUnloadRun (CanUnload m_unloadTimer diff).2 diffs

/-! ## `_ModifyUInt32` of `StatSystem.cpp` -/

/-- `_ModifyUInt32`: the value returned, and `baseValue` and `amount`
afterwards.  `baseValue` is a `uint32`, `amount` an `int32`; the negation, the
conversions and the sums are the ones of these types. -/
def _ModifyUInt32 (apply : Bool) (baseValue : Nat) (amount : Int) : Bool × Nat × Int :=
  let apply1 := if amount < 0 then !apply else apply
  let amount1 := if amount < 0 then toInt32 (-amount) else amount
  if apply1 then
    (apply1, toUInt32 ((baseValue : Int) + amount1), amount1)
  else
    let amount2 := if amount1 > toInt32 (baseValue : Int) then toInt32 (baseValue : Int) else amount1
    (apply1, toUInt32 ((baseValue : Int) - amount2), amount2)

/-! ## `AreaTrigger` -/

/-- What the member functions of `AreaTrigger.cpp` call and other files define:
`IsInWorld`, the `AddToWorld`, `RemoveFromWorld` and `Update` of the base class
`WorldObject`, the insertion of the trigger into the object store of its map
under its guid and its removal from it, and `AddObjectToRemoveList`.  They are
parameters; `σ` is the state of the base object together with its map. -/
structure AreaTriggerEnv (σ : Type) where
  IsInWorld : σ → Bool
  WorldObject_AddToWorld : σ → σ
  WorldObject_RemoveFromWorld : σ → σ
  WorldObject_Update : σ → Nat → σ
  ObjectsStore_Insert : σ → σ
  ObjectsStore_Remove : σ → σ
  AddObjectToRemoveList : σ → σ

/-- An `AreaTrigger`: its member `_duration` (an `int32`, read by `GetDuration`
and written by `SetDuration`) and the state `world` of the base object and of
its map. -/
structure AreaTrigger (σ : Type) where
  _duration : Int
  world : σ

/-- `AreaTrigger::AddToWorld`. -/
def AreaTrigger.AddToWorld {σ : Type} (E : AreaTriggerEnv σ) (t : AreaTrigger σ) :
    AreaTrigger σ :=
  if !E.IsInWorld t.world then
    { t with world := E.WorldObject_AddToWorld (E.ObjectsStore_Insert t.world) }
  else
    t

/-- `AreaTrigger::RemoveFromWorld`. -/
def AreaTrigger.RemoveFromWorld {σ : Type} (E : AreaTriggerEnv σ) (t : AreaTrigger σ) :
    AreaTrigger σ :=
  if E.IsInWorld t.world then
    { t with world := E.ObjectsStore_Remove (E.WorldObject_RemoveFromWorld t.world) }
  else
    t

/-- `AreaTrigger::Remove`. -/
def AreaTrigger.Remove {σ : Type} (E : AreaTriggerEnv σ) (t : AreaTrigger σ) : AreaTrigger σ :=
  if E.IsInWorld t.world then
    let t1 := AreaTrigger.RemoveFromWorld E t
    { t1 with world := E.AddObjectToRemoveList t1.world }
  else
    t

/-- `AreaTrigger::Update`; `p_time` is a `uint32`, the comparison is the one
with `int32(p_time)` and the subtraction the one of `_duration -= p_time`. -/
def AreaTrigger.Update {σ : Type} (E : AreaTriggerEnv σ) (t : AreaTrigger σ) (p_time : Nat) :
    AreaTrigger σ :=
  let t1 :=
    if t._duration > toInt32 (p_time : Int) then
      { t with _duration := toInt32 (t._duration - (p_time : Int)) }
    else
      AreaTrigger.Remove E t
  { t1 with world := E.WorldObject_Update t1.world p_time }

/-- A `Position`, with coordinates of a type `F` standing for `float`. -/
structure Position (F : Type) where
  x : F
  y : F
  z : F

/-- What `CreateAreaTrigger` reads of a `SpellInfo`: `Id`, `SpellVisual[0]` and
the result of `GetDuration()`. -/
structure SpellInfo where
  Id : Nat
  SpellVisual0 : Nat
  Duration : Int
deriving DecidableEq, Repr

/-- What `AreaTrigger::CreateAreaTrigger` calls and other files define, as
parameters: the setters of the base object, `IsPositionValid`, `_Create` (for
`HighGuid::AreaTrigger`), `PhasingHandler::InheritPhaseShift`, `Map::AddToMap`,
and the indexes of the update fields.  The caster is given by its address. -/
structure AreaTriggerCreateEnv (σ F : Type) where
  AREATRIGGER_SPELLID : Nat
  AREATRIGGER_SPELLVISUALID : Nat
  AREATRIGGER_DURATION : Nat
  AREATRIGGER_FINAL_POS : Nat
  SetMap : σ → Nat → σ
  Relocate : σ → Position F → σ
  IsPositionValid : σ → Bool
  _Create : σ → Nat → σ
  SetEntry : σ → Nat → σ
  SetObjectScale : σ → Nat → σ
  SetUInt32Value : σ → Nat → Nat → σ
  SetFloatValue : σ → Nat → F → σ
  InheritPhaseShift : σ → Nat → σ
  AddToMap : σ → Bool × σ

/-- `AreaTrigger::CreateAreaTrigger`: the value returned and the trigger
afterwards.  The error message of the invalid position is not kept. -/
def AreaTrigger.CreateAreaTrigger {σ F : Type} (E : AreaTriggerCreateEnv σ F)
    (t : AreaTrigger σ) (guidlow triggerEntry caster : Nat) (spell : SpellInfo)
    (pos : Position F) : Bool × AreaTrigger σ :=
  let w1 := E.Relocate (E.SetMap t.world caster) pos
  if !E.IsPositionValid w1 then
    (false, { t with world := w1 })
  else
    let w2 := E._Create w1 guidlow
    let w3 := E.SetEntry w2 triggerEntry
    let w4 := E.SetObjectScale w3 1
    let w5 := E.SetUInt32Value w4 E.AREATRIGGER_SPELLID spell.Id
    let w6 := E.SetUInt32Value w5 E.AREATRIGGER_SPELLVISUALID spell.SpellVisual0
    let w7 := E.SetUInt32Value w6 E.AREATRIGGER_DURATION (toUInt32 spell.Duration)
    let w8 := E.SetFloatValue w7 (E.AREATRIGGER_FINAL_POS + 0) pos.x
    let w9 := E.SetFloatValue w8 (E.AREATRIGGER_FINAL_POS + 1) pos.y
    let w10 := E.SetFloatValue w9 (E.AREATRIGGER_FINAL_POS + 2) pos.z
    let w11 := E.InheritPhaseShift w10 caster
    let added := E.AddToMap w11
    if !added.1 then
      (false, { _duration := spell.Duration, world := added.2 })
    else
      (true, { _duration := spell.Duration, world := added.2 })

/-- A call seen by the recording environments of `AreaTrigger`. -/
inductive TriggerCall where
  | StoreInsert
  | StoreRemove
  | AddToWorld
  | RemoveFromWorld
  | AddObjectToRemoveList
  | Update (p_time : Nat)
  | SetMap
  | Relocate
  | Create (guidlow : Nat)
  | SetField
  | InheritPhaseShift
  | AddToMap
deriving DecidableEq, Repr

/-- The state the recording environments work on: whether the object is in
world, whether its position is valid, whether its map accepts it, and the calls
seen so far. -/
structure TriggerWorld where
  inWorld : Bool
  positionValid : Bool
  mapAccepts : Bool
  calls : List TriggerCall
deriving DecidableEq, Repr

/-- An environment that records the calls; the `AddToWorld` of the base class
puts the object in world and its `RemoveFromWorld` takes it out. -/
def recordingTriggerEnv : AreaTriggerEnv TriggerWorld where
  IsInWorld := fun w => w.inWorld
  WorldObject_AddToWorld := fun w =>
    { w with inWorld := true, calls := w.calls ++ [TriggerCall.AddToWorld] }
  WorldObject_RemoveFromWorld := fun w =>
    { w with inWorld := false, calls := w.calls ++ [TriggerCall.RemoveFromWorld] }
  WorldObject_Update := fun w p_time => { w with calls := w.calls ++ [TriggerCall.Update p_time] }
  ObjectsStore_Insert := fun w => { w with calls := w.calls ++ [TriggerCall.StoreInsert] }
  ObjectsStore_Remove := fun w => { w with calls := w.calls ++ [TriggerCall.StoreRemove] }
  AddObjectToRemoveList := fun w =>
    { w with calls := w.calls ++ [TriggerCall.AddObjectToRemoveList] }

/-- An environment of `CreateAreaTrigger` that records the calls; a position
is valid when its `x` is not negative. -/
def recordingCreateEnv : AreaTriggerCreateEnv TriggerWorld Int where
  AREATRIGGER_SPELLID := 6
  AREATRIGGER_SPELLVISUALID := 7
  AREATRIGGER_DURATION := 8
  AREATRIGGER_FINAL_POS := 9
  SetMap := fun w _ => { w with calls := w.calls ++ [TriggerCall.SetMap] }
  Relocate := fun w pos =>
    { w with positionValid := decide (0 ≤ pos.x), calls := w.calls ++ [TriggerCall.Relocate] }
  IsPositionValid := fun w => w.positionValid
  _Create := fun w guidlow => { w with calls := w.calls ++ [TriggerCall.Create guidlow] }
  SetEntry := fun w _ => { w with calls := w.calls ++ [TriggerCall.SetField] }
  SetObjectScale := fun w _ => { w with calls := w.calls ++ [TriggerCall.SetField] }
  SetUInt32Value := fun w _ _ => { w with calls := w.calls ++ [TriggerCall.SetField] }
  SetFloatValue := fun w _ _ => { w with calls := w.calls ++ [TriggerCall.SetField] }
  InheritPhaseShift := fun w _ => { w with calls := w.calls ++ [TriggerCall.InheritPhaseShift] }
  AddToMap := fun w => (w.mapAccepts, { w with calls := w.calls ++ [TriggerCall.AddToMap] })

/-! ## Spell power, diminishing returns and weapon damage of `StatSystem.cpp`

The functions on `float` are read over the rational numbers. -/

/-- What `Player::ApplySpellPowerBonus` calls and other files define, as
parameters: `HasAuraType(SPELL_AURA_OVERRIDE_SPELL_POWER_BY_AP_PCT)`,
`ApplyModUInt32Value`, and the constants that index the update fields and bound
the loop over the spell schools.  `σ` is the state of the player apart from
`m_baseSpellPower`. -/
structure SpellPowerEnv (σ : Type) where
  PLAYER_FIELD_MOD_HEALING_DONE_POS : Nat
  PLAYER_FIELD_MOD_DAMAGE_DONE_POS : Nat
  SPELL_SCHOOL_HOLY : Nat
  MAX_SPELL_SCHOOL : Nat
  HasOverrideSpellPowerAura : σ → Bool
  ApplyModUInt32Value : σ → Nat → Int → Bool → σ

/-- A `Player`, as far as `ApplySpellPowerBonus` goes: the member
`m_baseSpellPower` (a `uint32`) and the rest of its state. -/
structure Player (σ : Type) where
  m_baseSpellPower : Nat
  rest : σ

/-- `Player::ApplySpellPowerBonus`. -/
def Player.ApplySpellPowerBonus {σ : Type} (E : SpellPowerEnv σ) (p : Player σ) (amount : Int)
    (apply : Bool) : Player σ :=
  if E.HasOverrideSpellPowerAura p.rest then
    p
  else
    let modified := _ModifyUInt32 apply p.m_baseSpellPower amount
    let apply1 := modified.1
    let amount1 := modified.2.2
    let s1 := E.ApplyModUInt32Value p.rest E.PLAYER_FIELD_MOD_HEALING_DONE_POS amount1 apply1
    let s2 := (List.range' E.SPELL_SCHOOL_HOLY (E.MAX_SPELL_SCHOOL - E.SPELL_SCHOOL_HOLY)).foldl
      (fun s i => E.ApplyModUInt32Value s (E.PLAYER_FIELD_MOD_DAMAGE_DONE_POS + i) amount1 apply1)
      s1
    { m_baseSpellPower := modified.2.1, rest := s2 }

/-- An environment that records the values handed to `ApplyModUInt32Value`; the
player has no aura that overrides the spell power. -/
def recordingSpellPowerEnv : SpellPowerEnv (List (Nat × Int × Bool)) where
  PLAYER_FIELD_MOD_HEALING_DONE_POS := 100
  PLAYER_FIELD_MOD_DAMAGE_DONE_POS := 200
  SPELL_SCHOOL_HOLY := 1
  MAX_SPELL_SCHOOL := 7
  HasOverrideSpellPowerAura := fun _ => false
  ApplyModUInt32Value := fun s index val apply => s ++ [(index, val, apply)]

/-- The table `m_diminishing_k`, by class index: the initialisers of the source,
from Warrior to Druid. -/
def m_diminishing_k : List ℚ :=
  [956 / 1000, 956 / 1000, 988 / 1000, 988 / 1000, 983 / 1000, 956 / 1000, 988 / 1000,
    983 / 1000, 983 / 1000, 0, 972 / 1000]

/-- `CalculateDiminishingReturns`; `playerClass` is a `uint8`, the index
`playerClass - 1` a `uint32`, and the result is `none` when the index is past
the end of a table. -/
def CalculateDiminishingReturns (capArray : List ℚ) (playerClass : Nat)
    (nonDiminishValue diminishValue : ℚ) : Option ℚ :=
  let classIdx := toUInt32 ((playerClass : Int) - 1)
  match m_diminishing_k[classIdx]?, capArray[classIdx]? with
  | some k, some c => some (c * diminishValue / (diminishValue + c * k) + nonDiminishValue)
  | _, _ => none

/-- The table `parry_cap`, by class index. -/
def parry_cap : List ℚ :=
  [65631440 / 1000000, 65631440 / 1000000, 145560408 / 1000000, 145560408 / 1000000, 0,
    65631440 / 1000000, 145560408 / 1000000, 0, 0, 0, 0]

/-- The table `dodge_cap`, by class index. -/
def dodge_cap : List ℚ :=
  [65631440 / 1000000, 65631440 / 1000000, 145560408 / 1000000, 145560408 / 1000000,
    150375940 / 1000000, 65631440 / 1000000, 145560408 / 1000000, 150375940 / 1000000,
    150375940 / 1000000, 0, 116890707 / 1000000]

/-- The attack types `Player::CalculateMinMaxDamage` tells apart. -/
inductive WeaponAttackType where
  | BASE_ATTACK
  | OFF_ATTACK
  | RANGED_ATTACK
deriving DecidableEq, Repr

/-- The unit mods chosen by the attack type. -/
inductive UnitMods where
  | UNIT_MOD_DAMAGE_MAINHAND
  | UNIT_MOD_DAMAGE_OFFHAND
  | UNIT_MOD_DAMAGE_RANGED
deriving DecidableEq, Repr

/-- The modifier types read by `CalculateMinMaxDamage`. -/
inductive UnitModifierType where
  | BASE_VALUE
  | BASE_PCT
  | TOTAL_VALUE
  | TOTAL_PCT
deriving DecidableEq, Repr

/-- The two ends of a weapon damage range. -/
inductive WeaponDamageRange where
  | MINDAMAGE
  | MAXDAMAGE
deriving DecidableEq, Repr

/-- The shapeshift forms `CalculateMinMaxDamage` tells apart; every other form
is `FORM_OTHER`. -/
inductive ShapeshiftForm where
  | FORM_NONE
  | FORM_CAT
  | FORM_BEAR
  | FORM_OTHER
deriving DecidableEq, Repr

/-- What `Player::CalculateMinMaxDamage` reads of the player through functions
and constants that other files define, as parameters.  `GetWeaponForAttack` is
the delay `GetTemplate()->GetDelay()` of the weapon found for
`GetWeaponForAttack(BASE_ATTACK, true)`, `none` when there is no such weapon. -/
structure PlayerStats where
  BASE_ATTACK_TIME : Nat
  BASE_MINDAMAGE : ℚ
  BASE_MAXDAMAGE : ℚ
  GetAPMultiplier : WeaponAttackType → Bool → ℚ
  GetFlatModifierValue : UnitMods → UnitModifierType → ℚ
  GetPctModifierValue : UnitMods → UnitModifierType → ℚ
  GetTotalAttackPowerValue : WeaponAttackType → ℚ
  GetWeaponDamageRange : WeaponAttackType → WeaponDamageRange → ℚ
  IsInFeralForm : Bool
  GetShapeshiftForm : ShapeshiftForm
  GetWeaponForAttack : Option Nat
  CanUseAttackType : WeaponAttackType → Bool

/-- `Player::CalculateMinMaxDamage`: `minDamage` and `maxDamage` as it leaves
them.  The delay of the weapon is divided by 1000 as an integer. -/
def Player.CalculateMinMaxDamage (P : PlayerStats) (attType : WeaponAttackType)
    (normalized addTotalPct : Bool) : ℚ × ℚ :=
  let unitMod :=
    match attType with
    | WeaponAttackType.BASE_ATTACK => UnitMods.UNIT_MOD_DAMAGE_MAINHAND
    | WeaponAttackType.OFF_ATTACK => UnitMods.UNIT_MOD_DAMAGE_OFFHAND
    | WeaponAttackType.RANGED_ATTACK => UnitMods.UNIT_MOD_DAMAGE_RANGED
  let attackPowerMod := max (P.GetAPMultiplier attType normalized) (1 / 4)
  let baseValue := P.GetFlatModifierValue unitMod UnitModifierType.BASE_VALUE +
    P.GetTotalAttackPowerValue attType / 14 * attackPowerMod
  let basePct := P.GetPctModifierValue unitMod UnitModifierType.BASE_PCT
  let totalValue := P.GetFlatModifierValue unitMod UnitModifierType.TOTAL_VALUE
  let totalPct := if addTotalPct then P.GetPctModifierValue unitMod UnitModifierType.TOTAL_PCT else 1
  let weaponMinDamage := P.GetWeaponDamageRange attType WeaponDamageRange.MINDAMAGE
  let weaponMaxDamage := P.GetWeaponDamageRange attType WeaponDamageRange.MAXDAMAGE
  let finish := fun (wMin wMax : ℚ) =>
    (((wMin + baseValue) * basePct + totalValue) * totalPct,
      ((wMax + baseValue) * basePct + totalValue) * totalPct)
  if P.IsInFeralForm then
    let weaponSpeed : ℚ :=
      match P.GetWeaponForAttack with
      | some delay => ((delay / 1000 : Nat) : ℚ)
      | none => (P.BASE_ATTACK_TIME : ℚ) / 1000
    if P.GetShapeshiftForm = ShapeshiftForm.FORM_CAT then
      finish (weaponMinDamage / weaponSpeed) (weaponMaxDamage / weaponSpeed)
    else if P.GetShapeshiftForm = ShapeshiftForm.FORM_BEAR then
      let weaponMinDamage1 := weaponMinDamage / weaponSpeed + weaponMinDamage / (5 / 2)
      let weaponMaxDamage1 := weaponMinDamage1 / weaponSpeed + weaponMaxDamage / (5 / 2)
      finish weaponMinDamage1 weaponMaxDamage1
    else
      finish weaponMinDamage weaponMaxDamage
  else if !P.CanUseAttackType attType then
    if attType ≠ WeaponAttackType.BASE_ATTACK then
      (0, 0)
    else
      finish P.BASE_MINDAMAGE P.BASE_MAXDAMAGE
  else
    finish weaponMinDamage weaponMaxDamage

/-- The readings of a player without modifiers (no flat values, no attack
power, percentages of 1) whose weapon deals 100 to 110 and has a delay of 2000,
in the given form. -/
def plainStats (feral : Bool) (form : ShapeshiftForm) : PlayerStats where
  BASE_ATTACK_TIME := 2000
  BASE_MINDAMAGE := 1
  BASE_MAXDAMAGE := 2
  GetAPMultiplier := fun _ _ => 1
  GetFlatModifierValue := fun _ _ => 0
  GetPctModifierValue := fun _ _ => 1
  GetTotalAttackPowerValue := fun _ => 0
  GetWeaponDamageRange := fun _ range =>
    match range with
    | WeaponDamageRange.MINDAMAGE => 100
    | WeaponDamageRange.MAXDAMAGE => 110
  IsInFeralForm := feral
  GetShapeshiftForm := form
  GetWeaponForAttack := some 2000
  CanUseAttackType := fun _ => true

/-! ## Concrete data -/

/-- Three records of one type, the record at address `p` having spawnId `p`
and due-time `50 - p`. -/
def descendingMemory : Memory :=
  fun p => { type := 0, spawnId := p, entry := 100 + p, respawnTime := 50 - (p : Int), gridId := 7 }

/-- Records of one type and one due-time, the record at address `p` having
spawnId `p + 1`. -/
def tiedMemory : Memory :=
  fun p => { type := 0, spawnId := p + 1, entry := 3, respawnTime := 5, gridId := 0 }

/-- Records of both types: address `p` holds type `p % 2`, spawnId `p / 2`,
due-time `p % 3`. -/
def mixedMemory : Memory :=
  fun p => { type := p % 2, spawnId := p / 2, entry := 1, respawnTime := ((p % 3 : Nat) : Int), gridId := 0 }

/-- Two records for the creature spawn 7: the one at address 0 is due at 5, the
other ones at 9. -/
def duplicateMemory : Memory :=
  fun p => { type := 0, spawnId := 7, entry := 1, respawnTime := if p = 0 then 5 else 9, gridId := 0 }

/-- Records that agree on type, spawnId and due-time at every address. -/
def constantMemory : Memory :=
  fun _ => { type := 1, spawnId := 7, entry := 1, respawnTime := 5, gridId := 0 }

/-- A map without any respawn record. -/
def emptyMap : Map where
  mem := fun _ => { type := 0, spawnId := 0, entry := 0, respawnTime := 0, gridId := 0 }
  _respawnTimes := []
  _creatureRespawnTimesBySpawnId := fun _ => none
  _gameObjectRespawnTimesBySpawnId := fun _ => none
  nextAddress := 0
  savedRespawns := []

/-- A map holding one record, for the gameobject spawn 42, due at 1000. -/
def oneRespawnMap : Map :=
  (AddRespawnInfo emptyMap
    { type := SPAWN_TYPE_GAMEOBJECT, spawnId := 42, entry := 9, respawnTime := 1000, gridId := 3 }).2

/-- A lookup that knows the creature spawn 7 only, at address 3. -/
def findSeven : Nat → Nat → Option RespawnInfoPtr :=
  fun type spawnId => if type = SPAWN_TYPE_CREATURE ∧ spawnId = 7 then some 3 else none

/-- Three active objects, the update pass standing on the second one. -/
def activeMidUpdate : ActiveObjects :=
  { m_activeNonPlayers := [10, 20, 30], m_activeNonPlayersIter := some 20 }

/-- A loaded cell without players whose countdown stands at 5, housing one
Activated entity. -/
def activeCell : Cell :=
  { state := CellState.Loaded, expiry := 5, players := 0, pinCount := 0, activeEntities := 1 }

/-- A loaded cell without players, pins and Activated entities. -/
def idleCell : Cell :=
  { state := CellState.Loaded, expiry := 5, players := 0, pinCount := 0, activeEntities := 0 }

/-- A trigger outside the world with 5 units of duration left, nothing having
been called yet. -/
def freshTrigger : AreaTrigger TriggerWorld :=
  { _duration := 5,
    world := { inWorld := false, positionValid := true, mapAccepts := true, calls := [] } }

/-- A trigger in world with 5 units of duration left, nothing having been called
yet. -/
def liveTrigger : AreaTrigger TriggerWorld :=
  { _duration := 5,
    world := { inWorld := true, positionValid := true, mapAccepts := true, calls := [] } }

/-- A spell with id 77, visual 3 and a duration of 10000. -/
def exampleSpell : SpellInfo := { Id := 77, SpellVisual0 := 3, Duration := 10000 }

/-- Three active objects, the update pass standing on the last one. -/
def activeAtLast : ActiveObjects :=
  { m_activeNonPlayers := [10, 20, 30], m_activeNonPlayersIter := some 30 }

/-- A cell of the grid (3, 4) that may load its grid. -/
def loadingCell : CellData :=
  { grid_x := 3, grid_y := 4, cell_x := 1, cell_y := 2, nocreate := false }

/-- The same cell, flagged NoCreate. -/
def noCreateCell : CellData :=
  { grid_x := 3, grid_y := 4, cell_x := 1, cell_y := 2, nocreate := true }

/-- A player with a base spell power of 5, nothing having been handed to
`ApplyModUInt32Value` yet. -/
def fivePowerPlayer : Player (List (Nat × Int × Bool)) :=
  { m_baseSpellPower := 5, rest := [] }

/-! # Theorems -/

/-! ## The comparator as an order -/

theorem compare_eq_true_iff (mem : Memory) (a b : RespawnInfoPtr) :
    CompareRespawnInfo mem a b = some true ↔
      a ≠ b ∧ ((mem b).respawnTime < (mem a).respawnTime ∨
        ((mem a).respawnTime = (mem b).respawnTime ∧
          ((mem a).spawnId < (mem b).spawnId ∨
            ((mem a).spawnId = (mem b).spawnId ∧ (mem a).type < (mem b).type)))) := by
  unfold CompareRespawnInfo
  by_cases h1 : a = b
  · subst h1
    simp
  · rw [if_neg h1]
    split_ifs with h2 h3 h4 <;>
      simp only [Option.some.injEq, decide_eq_true_eq, decide_eq_false_iff_not, reduceCtorEq,
        Bool.false_eq_true, ne_eq, false_iff, iff_false, true_iff, iff_true, h1,
        not_false_eq_true, true_and, false_or] <;> omega

theorem compare_eq_false_iff (mem : Memory) (a b : RespawnInfoPtr) :
    CompareRespawnInfo mem a b = some false ↔
      a = b ∨ ((mem a).respawnTime < (mem b).respawnTime ∨
        ((mem a).respawnTime = (mem b).respawnTime ∧
          ((mem b).spawnId < (mem a).spawnId ∨
            ((mem a).spawnId = (mem b).spawnId ∧ (mem b).type < (mem a).type)))) := by
  unfold CompareRespawnInfo
  by_cases h1 : a = b
  · subst h1
    simp
  · rw [if_neg h1]
    split_ifs with h2 h3 h4 <;>
      simp only [Option.some.injEq, decide_eq_true_eq, decide_eq_false_iff_not, reduceCtorEq,
        Bool.false_eq_true, ne_eq, false_iff, iff_false, true_iff, iff_true, h1,
        not_false_eq_true, true_and, false_or] <;> omega

theorem compare_eq_none_iff (mem : Memory) (a b : RespawnInfoPtr) :
    CompareRespawnInfo mem a b = none ↔
      a ≠ b ∧ (mem a).respawnTime = (mem b).respawnTime ∧
        (mem a).spawnId = (mem b).spawnId ∧ (mem a).type = (mem b).type := by
  unfold CompareRespawnInfo
  by_cases h1 : a = b
  · subst h1
    simp
  · rw [if_neg h1]
    split_ifs with h2 h3 h4 <;>
      simp only [Option.some.injEq, decide_eq_true_eq, decide_eq_false_iff_not, reduceCtorEq,
        Bool.false_eq_true, ne_eq, false_iff, iff_false, true_iff, iff_true, h1,
        not_false_eq_true, true_and, false_or] <;> omega

theorem compare_self (mem : Memory) (a : RespawnInfoPtr) :
    CompareRespawnInfo mem a a = some false := by
  simp [CompareRespawnInfo]

theorem DistinctKeys.tail {mem : Memory} {x : RespawnInfoPtr} {l : List RespawnInfoPtr}
    (h : DistinctKeys mem (x :: l)) : DistinctKeys mem l :=
  fun a ha b hb => h a (List.mem_cons_of_mem _ ha) b (List.mem_cons_of_mem _ hb)

theorem DistinctKeys.erase {mem : Memory} {l : List RespawnInfoPtr} (h : DistinctKeys mem l)
    (r : RespawnInfoPtr) : DistinctKeys mem (l.erase r) :=
  fun a ha b hb => h a (List.mem_of_mem_erase ha) b (List.mem_of_mem_erase hb)

/-- A record ranked below nobody has the smallest due-time. -/
theorem time_le_of_compare_false {mem : Memory} {r s : RespawnInfoPtr}
    (h : CompareRespawnInfo mem r s = some false) :
    (mem r).respawnTime ≤ (mem s).respawnTime := by
  rcases (compare_eq_false_iff mem r s).1 h with h | h
  · subst h
    exact le_refl _
  · omega

/-- On records with distinct keys the comparator is transitive in the form
needed to find the top: what is not below `x` and not above it is `x`. -/
theorem compare_false_trans {mem : Memory} {r x s : RespawnInfoPtr}
    (hrx : (mem r).type = (mem x).type → (mem r).spawnId = (mem x).spawnId → r = x)
    (h1 : CompareRespawnInfo mem r x ≠ some false)
    (h2 : CompareRespawnInfo mem r s = some false) :
    CompareRespawnInfo mem x s = some false := by
  rw [ne_eq, compare_eq_false_iff] at h1
  rw [compare_eq_false_iff] at h2
  rw [compare_eq_false_iff]
  by_cases hxs : x = s
  · exact Or.inl hxs
  · right
    have hne : r ≠ x := fun h => h1 (Or.inl h)
    have hk : ¬ ((mem r).type = (mem x).type ∧ (mem r).spawnId = (mem x).spawnId) :=
      fun h => hne (hrx h.1 h.2)
    have h1' := fun h => h1 (Or.inr h)
    rcases h2 with h2 | h2
    · subst h2
      omega
    · omega

/-- A non-empty collection with distinct keys has a top record. -/
theorem exists_isTop (mem : Memory) (l : List RespawnInfoPtr) (hne : l ≠ [])
    (hk : DistinctKeys mem l) :
    ∃ r ∈ l, ∀ s ∈ l, CompareRespawnInfo mem r s = some false := by
  induction l with
  | nil => exact absurd rfl hne
  | cons x t ih =>
    by_cases ht : t = []
    · subst ht
      refine ⟨x, List.mem_cons_self _ _, fun s hs => ?_⟩
      rw [List.mem_singleton] at hs
      subst hs
      exact compare_self mem s
    · obtain ⟨r, hr, hall⟩ := ih ht hk.tail
      by_cases hrx : CompareRespawnInfo mem r x = some false
      · refine ⟨r, List.mem_cons_of_mem _ hr, fun s hs => ?_⟩
        rcases List.mem_cons.1 hs with h | h
        · subst h
          exact hrx
        · exact hall s h
      · refine ⟨x, List.mem_cons_self _ _, fun s hs => ?_⟩
        rcases List.mem_cons.1 hs with h | h
        · subst h
          exact compare_self mem s
        · refine compare_false_trans (fun h1 h2 => ?_) hrx (hall s h)
          by_contra hne'
          exact hk r (List.mem_cons_of_mem _ hr) x (List.mem_cons_self _ _) hne' ⟨h1, h2⟩

theorem isTop_iff (mem : Memory) (l : List RespawnInfoPtr) (r : RespawnInfoPtr) :
    isTop mem l r = true ↔ ∀ s ∈ l, CompareRespawnInfo mem r s = some false := by
  simp [isTop, List.all_eq_true]

theorem top_spec {mem : Memory} {l : List RespawnInfoPtr} {r : RespawnInfoPtr}
    (h : top mem l = some r) :
    r ∈ l ∧ ∀ s ∈ l, CompareRespawnInfo mem r s = some false :=
  ⟨List.mem_of_find?_eq_some h, (isTop_iff mem l r).1 (List.find?_some h)⟩

theorem top_isSome (mem : Memory) (l : List RespawnInfoPtr) (hne : l ≠ [])
    (hk : DistinctKeys mem l) : ∃ r, top mem l = some r := by
  obtain ⟨r, hr, hall⟩ := exists_isTop mem l hne hk
  have h : (top mem l).isSome := by
    rw [top, List.find?_isSome]
    exact ⟨r, hr, (isTop_iff mem l r).2 hall⟩
  exact Option.isSome_iff_exists.1 h

/-- With enough fuel, repeated extraction hands out every record, each one
ranked below none of those extracted after it. -/
theorem extractAll_spec (mem : Memory) :
    ∀ (n : Nat) (l : List RespawnInfoPtr), l.length ≤ n → DistinctKeys mem l →
      (extractAll mem n l).Perm l ∧
        (extractAll mem n l).Pairwise (fun x y => CompareRespawnInfo mem x y = some false) := by
  intro n
  induction n with
  | zero =>
    intro l hl _
    have : l = [] := List.length_eq_zero.1 (Nat.le_zero.1 hl)
    subst this
    simp [extractAll]
  | succ n ih =>
    intro l hl hk
    by_cases hne : l = []
    · subst hne
      simp [extractAll, top]
    · obtain ⟨r, hr⟩ := top_isSome mem l hne hk
      obtain ⟨hmem, hall⟩ := top_spec hr
      have hlen : (l.erase r).length ≤ n := by
        rw [List.length_erase_of_mem hmem]
        omega
      obtain ⟨hperm, hpw⟩ := ih (l.erase r) hlen (hk.erase r)
      simp only [extractAll, hr]
      refine ⟨(hperm.cons r).trans (List.perm_cons_erase hmem).symm, ?_⟩
      rw [List.pairwise_cons]
      exact ⟨fun y hy => hall y (List.mem_of_mem_erase (hperm.subset hy)), hpw⟩

/-- In a list ordered by `R`, two members not related by `R` come in the
opposite order. -/
theorem sublist_pair_of_pairwise {α : Type} {R : α → α → Prop} {a b : α} :
    ∀ {out : List α}, out.Pairwise R → a ∈ out → b ∈ out → a ≠ b → ¬ R a b →
      List.Sublist [b, a] out := by
  intro out
  induction out with
  | nil => intro _ ha; exact absurd ha (List.not_mem_nil _)
  | cons x t ih =>
    intro hp ha hb hab hR
    rw [List.pairwise_cons] at hp
    rcases List.mem_cons.1 ha with hax | hat
    · subst hax
      rcases List.mem_cons.1 hb with hbx | hbt
      · exact absurd hbx.symm hab
      · exact absurd (hp.1 b hbt) hR
    · rcases List.mem_cons.1 hb with hbx | hbt
      · subst hbx
        exact List.Sublist.cons₂ _ (List.singleton_sublist.2 hat)
      · exact List.Sublist.cons _ (ih hp.2 hat hbt hab hR)

theorem compare_trichotomy {mem : Memory} {a b : RespawnInfoPtr} (hne : a ≠ b)
    (hk : ¬ ((mem a).type = (mem b).type ∧ (mem a).spawnId = (mem b).spawnId)) :
    (CompareRespawnInfo mem a b = some true ∧ CompareRespawnInfo mem b a = some false) ∨
      (CompareRespawnInfo mem a b = some false ∧ CompareRespawnInfo mem b a = some true) := by
  have hne' : b ≠ a := Ne.symm hne
  simp only [compare_eq_true_iff, compare_eq_false_iff, hne, hne', ne_eq, not_false_eq_true,
    true_and, false_or]
  omega

theorem compare_asymm {mem : Memory} {a b : RespawnInfoPtr}
    (h : CompareRespawnInfo mem a b = some true) : CompareRespawnInfo mem b a = some false := by
  rw [compare_eq_true_iff] at h
  rw [compare_eq_false_iff]
  right
  omega

theorem compare_trans {mem : Memory} {a b c : RespawnInfoPtr}
    (hab : CompareRespawnInfo mem a b = some true)
    (hbc : CompareRespawnInfo mem b c = some true) :
    CompareRespawnInfo mem a c = some true := by
  have hac : a ≠ c := by
    intro h
    subst h
    have := compare_asymm hab
    rw [hbc] at this
    cases this
  rw [compare_eq_true_iff] at hab hbc
  rw [compare_eq_true_iff]
  exact ⟨hac, by omega⟩

/-! ## Claims on the comparator and on priority extraction -/

/-- C1: in a non-empty collection of respawn records with pairwise distinct
(type, spawnId) there is a record selected for extraction; a record `r` with
`compare(r, s)` false for every other record `s` has a respawnTime less than or
equal to the one of every record; and extracting repeatedly hands out every
record, in non-decreasing order of due-time. -/
theorem respawn_extraction_order (mem : Memory) (l : List RespawnInfoPtr) (hne : l ≠ [])
    (hk : DistinctKeys mem l) :
    (∃ r, top mem l = some r ∧ r ∈ l ∧
        ∀ s ∈ l, (mem r).respawnTime ≤ (mem s).respawnTime) ∧
      (∀ r ∈ l, (∀ s ∈ l, s ≠ r → CompareRespawnInfo mem r s = some false) →
        ∀ s ∈ l, (mem r).respawnTime ≤ (mem s).respawnTime) ∧
      (extractAll mem l.length l).Perm l ∧
      (dueTimes mem (extractAll mem l.length l)).Sorted (fun t u => t ≤ u) := by
  refine ⟨?_, ?_, (extractAll_spec mem l.length l (le_refl _) hk).1, ?_⟩
  · obtain ⟨r, hr⟩ := top_isSome mem l hne hk
    exact ⟨r, hr, (top_spec hr).1, fun s hs => time_le_of_compare_false ((top_spec hr).2 s hs)⟩
  · intro r _ hall s hs
    by_cases hsr : s = r
    · subst hsr
      exact le_refl _
    · exact time_le_of_compare_false (hall s hs hsr)
  · have hpw := (extractAll_spec mem l.length l (le_refl _) hk).2
    unfold dueTimes List.Sorted
    rw [List.pairwise_map]
    exact hpw.imp (fun h => time_le_of_compare_false h)

/-- Witness of C1 on three records due at 50, 49 and 48: they are extracted in
the order 48, 49, 50. -/
theorem respawn_extraction_order_witness :
    ([0, 1, 2] ≠ ([] : List RespawnInfoPtr) ∧ DistinctKeys descendingMemory [0, 1, 2]) ∧
      extractAll descendingMemory 3 [0, 1, 2] = [2, 1, 0] ∧
      (dueTimes descendingMemory (extractAll descendingMemory 3 [0, 1, 2])).Sorted
        (fun t u => t ≤ u) :=
  ⟨⟨by decide, by decide⟩, by decide,
    (respawn_extraction_order descendingMemory [0, 1, 2] (by decide) (by decide)).2.2.2⟩

/-- C2, as stated, fails: of two records due at the same time with spawnIds 1
and 2, the comparator ranks the one with spawnId 1 below the other one, and the
record with spawnId 2 is extracted first. -/
theorem tie_break_ascending_counterexample :
    (tiedMemory 0).respawnTime = (tiedMemory 1).respawnTime ∧
      (tiedMemory 0).spawnId < (tiedMemory 1).spawnId ∧
      CompareRespawnInfo tiedMemory 0 1 = some true ∧
      top tiedMemory [0, 1] = some 1 ∧
      extractAll tiedMemory 2 [0, 1] = [1, 0] := by
  decide

/-- C2, amended: among respawn records with pairwise distinct (type, spawnId)
and the same respawnTime, priority extraction hands out the records in
descending spawnId order, and for equal spawnId in descending type order: if
`a` has the smaller spawnId (or the same spawnId and the smaller type), then `b`
is extracted before `a`. -/
theorem tie_break_extraction (mem : Memory) (l : List RespawnInfoPtr)
    (hk : DistinctKeys mem l) (a b : RespawnInfoPtr) (ha : a ∈ l) (hb : b ∈ l)
    (ht : (mem a).respawnTime = (mem b).respawnTime)
    (hlt : (mem a).spawnId < (mem b).spawnId ∨
      ((mem a).spawnId = (mem b).spawnId ∧ (mem a).type < (mem b).type)) :
    CompareRespawnInfo mem a b = some true ∧
      List.Sublist [b, a] (extractAll mem l.length l) := by
  have hab : a ≠ b := by
    intro h
    subst h
    omega
  have hcmp : CompareRespawnInfo mem a b = some true := by
    rw [compare_eq_true_iff]
    exact ⟨hab, by omega⟩
  obtain ⟨hperm, hpw⟩ := extractAll_spec mem l.length l (le_refl _) hk
  refine ⟨hcmp, sublist_pair_of_pairwise hpw (hperm.mem_iff.2 ha) (hperm.mem_iff.2 hb) hab ?_⟩
  rw [hcmp]
  simp

/-- Witness of the amended C2 on three records due at the same time with
spawnIds 1, 2 and 3. -/
theorem tie_break_extraction_witness :
    (DistinctKeys tiedMemory [0, 1, 2] ∧ (0 : RespawnInfoPtr) ∈ [0, 1, 2] ∧
        (1 : RespawnInfoPtr) ∈ [0, 1, 2]) ∧
      extractAll tiedMemory 3 [0, 1, 2] = [2, 1, 0] ∧
      List.Sublist [1, 0] (extractAll tiedMemory 3 [0, 1, 2]) :=
  ⟨⟨by decide, by decide, by decide⟩, by decide,
    (tie_break_extraction tiedMemory [0, 1, 2] (by decide) 0 1 (by decide) (by decide)
      (by decide) (by decide)).2⟩

/-- C3: on a collection of respawn records with pairwise distinct
(type, spawnId), CompareRespawnInfo is a strict total order: it is irreflexive,
asymmetric and transitive, of two distinct records exactly one is ranked below
the other one, and the duplicate assertion is never reached. -/
theorem CompareRespawnInfo_strict_total_order (mem : Memory) (l : List RespawnInfoPtr)
    (hk : DistinctKeys mem l) :
    (∀ a ∈ l, CompareRespawnInfo mem a a = some false) ∧
      (∀ a ∈ l, ∀ b ∈ l, CompareRespawnInfo mem a b = some true →
        CompareRespawnInfo mem b a = some false) ∧
      (∀ a ∈ l, ∀ b ∈ l, ∀ c ∈ l, CompareRespawnInfo mem a b = some true →
        CompareRespawnInfo mem b c = some true → CompareRespawnInfo mem a c = some true) ∧
      (∀ a ∈ l, ∀ b ∈ l, a ≠ b →
        (CompareRespawnInfo mem a b = some true ∧ CompareRespawnInfo mem b a = some false) ∨
          (CompareRespawnInfo mem a b = some false ∧ CompareRespawnInfo mem b a = some true)) ∧
      (∀ a ∈ l, ∀ b ∈ l, CompareRespawnInfo mem a b ≠ none) := by
  refine ⟨fun a _ => compare_self mem a, fun a _ b _ h => compare_asymm h,
    fun a _ b _ c _ hab hbc => compare_trans hab hbc,
    fun a ha b hb hne => compare_trichotomy hne (hk a ha b hb hne), ?_⟩
  intro a ha b hb h
  rw [compare_eq_none_iff] at h
  exact hk a ha b hb h.1 ⟨h.2.2.2, h.2.2.1⟩

/-- Witness of C3 on six records of both types. -/
theorem CompareRespawnInfo_strict_total_order_witness :
    DistinctKeys mixedMemory [0, 1, 2, 3, 4, 5] ∧
      (CompareRespawnInfo mixedMemory 0 3 = some true ∧
        CompareRespawnInfo mixedMemory 3 0 = some false) ∧
      ∀ a ∈ [0, 1, 2, 3, 4, 5], ∀ b ∈ [0, 1, 2, 3, 4, 5],
        CompareRespawnInfo mixedMemory a b ≠ none :=
  ⟨by decide, by decide,
    (CompareRespawnInfo_strict_total_order mixedMemory [0, 1, 2, 3, 4, 5] (by decide)).2.2.2.2⟩

/-- C6, as stated, fails: two distinct records for the creature spawn 7, due at
5 and at 9, are compared without reaching the assertion. -/
theorem duplicate_assertion_counterexample :
    (0 : RespawnInfoPtr) ≠ 1 ∧
      (duplicateMemory 0).type = (duplicateMemory 1).type ∧
      (duplicateMemory 0).spawnId = (duplicateMemory 1).spawnId ∧
      CompareRespawnInfo duplicateMemory 0 1 = some false ∧
      CompareRespawnInfo duplicateMemory 1 0 = some true := by
  decide

/-- C6, amended: for two distinct respawn record objects with the same type
and the same spawnId, comparing them fails the "Duplicate respawn entry"
assertion exactly when their respawnTimes are equal; when the respawnTimes
differ, the comparison returns whether the first one is due later. -/
theorem duplicate_assertion_iff (mem : Memory) (a b : RespawnInfoPtr) (hne : a ≠ b)
    (htype : (mem a).type = (mem b).type) (hid : (mem a).spawnId = (mem b).spawnId) :
    (CompareRespawnInfo mem a b = none ↔ (mem a).respawnTime = (mem b).respawnTime) ∧
      ((mem a).respawnTime ≠ (mem b).respawnTime →
        CompareRespawnInfo mem a b = some (decide ((mem a).respawnTime > (mem b).respawnTime))) := by
  constructor
  · rw [compare_eq_none_iff]
    exact ⟨fun h => h.2.1, fun h => ⟨hne, h, hid, htype⟩⟩
  · intro ht
    simp [CompareRespawnInfo, hne, ht]

/-- Witness of the amended C6 on two records that agree on type, spawnId and
due-time. -/
theorem duplicate_assertion_iff_witness :
    ((0 : RespawnInfoPtr) ≠ 1 ∧ (constantMemory 0).type = (constantMemory 1).type ∧
        (constantMemory 0).spawnId = (constantMemory 1).spawnId) ∧
      CompareRespawnInfo constantMemory 0 1 = none :=
  ⟨⟨by decide, by decide, by decide⟩,
    (duplicate_assertion_iff constantMemory 0 1 (by decide) (by decide) (by decide)).1.2
      (by decide)⟩

/-! ## Claims on the respawn indexes -/

/-- C4: for a spawn type among creature and gameobject, every spawnId `S` and
every due-time `T`: AddRespawnInfo of a record (type, S, T) into a map holding
no record for (type, S) inserts it, and GetRespawnTime(type, S) then returns
exactly `T`. -/
theorem AddRespawnInfo_GetRespawnTime (m : Map) (type S entry : Nat) (T : Int) (gridId : Nat)
    (h : (type = SPAWN_TYPE_CREATURE ∧ m._creatureRespawnTimesBySpawnId S = none) ∨
      (type = SPAWN_TYPE_GAMEOBJECT ∧ m._gameObjectRespawnTimesBySpawnId S = none)) :
    (AddRespawnInfo m
        { type := type, spawnId := S, entry := entry, respawnTime := T, gridId := gridId }).1
        = some true ∧
      GetRespawnTime (AddRespawnInfo m
        { type := type, spawnId := S, entry := entry, respawnTime := T, gridId := gridId }).2
        type S = some T := by
  rcases h with ⟨ht, hS⟩ | ⟨ht, hS⟩ <;> subst ht <;>
    simp [AddRespawnInfo, GetRespawnMapForType, GetRespawnTime, SPAWN_TYPE_CREATURE,
      SPAWN_TYPE_GAMEOBJECT, hS]

/-- Witness of C4: a gameobject record for spawn 42 due at 1000, added to an
empty map. -/
theorem AddRespawnInfo_GetRespawnTime_witness :
    emptyMap._gameObjectRespawnTimesBySpawnId 42 = none ∧
      GetRespawnTime (AddRespawnInfo emptyMap
        { type := SPAWN_TYPE_GAMEOBJECT, spawnId := 42, entry := 9, respawnTime := 1000,
          gridId := 3 }).2 SPAWN_TYPE_GAMEOBJECT 42 = some 1000 :=
  ⟨rfl, (AddRespawnInfo_GetRespawnTime emptyMap SPAWN_TYPE_GAMEOBJECT 42 9 1000 3
    (Or.inr ⟨rfl, rfl⟩)).2⟩

/-- C5: AddRespawnInfo for a (type, spawnId) that already has a pending record
is rejected as fatal and leaves the map as it was: the existing record keeps
its fields, and GetRespawnTime still returns its due-time. -/
theorem AddRespawnInfo_duplicate_rejected (m : Map) (info : RespawnInfo)
    (existing : RespawnInfoPtr)
    (h : (info.type = SPAWN_TYPE_CREATURE ∧
        m._creatureRespawnTimesBySpawnId info.spawnId = some existing) ∨
      (info.type = SPAWN_TYPE_GAMEOBJECT ∧
        m._gameObjectRespawnTimesBySpawnId info.spawnId = some existing)) :
    AddRespawnInfo m info = (none, m) ∧
      (AddRespawnInfo m info).2.mem existing = m.mem existing ∧
      GetRespawnTime (AddRespawnInfo m info).2 info.type info.spawnId
        = some (m.mem existing).respawnTime := by
  have hadd : AddRespawnInfo m info = (none, m) := by
    rcases h with ⟨ht, hS⟩ | ⟨ht, hS⟩ <;>
      simp [AddRespawnInfo, GetRespawnMapForType, SPAWN_TYPE_CREATURE, SPAWN_TYPE_GAMEOBJECT,
        ht, hS]
  rw [hadd]
  refine ⟨rfl, rfl, ?_⟩
  rcases h with ⟨ht, hS⟩ | ⟨ht, hS⟩ <;>
    simp [GetRespawnMapForType, GetRespawnTime, SPAWN_TYPE_CREATURE, SPAWN_TYPE_GAMEOBJECT,
      ht, hS]

/-- Witness of C5: a second record for the gameobject spawn 42, due at 5, is
rejected by a map that holds one due at 1000. -/
theorem AddRespawnInfo_duplicate_rejected_witness :
    oneRespawnMap._gameObjectRespawnTimesBySpawnId 42 = some 0 ∧
      (AddRespawnInfo oneRespawnMap
        { type := SPAWN_TYPE_GAMEOBJECT, spawnId := 42, entry := 9, respawnTime := 5,
          gridId := 3 }).1 = none ∧
      GetRespawnTime (AddRespawnInfo oneRespawnMap
        { type := SPAWN_TYPE_GAMEOBJECT, spawnId := 42, entry := 9, respawnTime := 5,
          gridId := 3 }).2 SPAWN_TYPE_GAMEOBJECT 42 = some 1000 :=
  ⟨rfl, rfl,
    (AddRespawnInfo_duplicate_rejected oneRespawnMap
      { type := SPAWN_TYPE_GAMEOBJECT, spawnId := 42, entry := 9, respawnTime := 5, gridId := 3 }
      0 (Or.inr ⟨rfl, rfl⟩)).2.2⟩

/-- C7: GetRespawnTime of a creature or of a gameobject returns 0 when the
index of that type has no entry for the spawnId and else the respawnTime of the
record stored there; the index of the other type has no influence on it. -/
theorem GetRespawnTime_reads_own_index (m : Map) (spawnId : Nat) :
    GetRespawnTime m SPAWN_TYPE_CREATURE spawnId =
        some (match m._creatureRespawnTimesBySpawnId spawnId with
          | none => 0
          | some it => (m.mem it).respawnTime) ∧
      GetRespawnTime m SPAWN_TYPE_GAMEOBJECT spawnId =
        some (match m._gameObjectRespawnTimesBySpawnId spawnId with
          | none => 0
          | some it => (m.mem it).respawnTime) ∧
      (∀ other : RespawnInfoMap,
        GetGORespawnTime { m with _creatureRespawnTimesBySpawnId := other } spawnId =
          GetGORespawnTime m spawnId) ∧
      (∀ other : RespawnInfoMap,
        GetCreatureRespawnTime { m with _gameObjectRespawnTimesBySpawnId := other } spawnId =
          GetCreatureRespawnTime m spawnId) := by
  refine ⟨?_, ?_, ?_, ?_⟩
  · cases h : m._creatureRespawnTimesBySpawnId spawnId <;>
      simp [GetRespawnTime, GetRespawnMapForType, h]
  · cases h : m._gameObjectRespawnTimesBySpawnId spawnId <;>
      simp [GetRespawnTime, GetRespawnMapForType, SPAWN_TYPE_CREATURE, SPAWN_TYPE_GAMEOBJECT, h]
  · intro other
    rfl
  · intro other
    rfl

/-- C8: RemoveRespawnTime, when a record for (type, spawnId) is found, does
what DeleteRespawnInfo does on that record and nothing else; when none is
found, it does what DeleteRespawnInfoFromDB(type, spawnId) does if
alwaysDeleteFromDB is set, and nothing at all if it is not. -/
theorem RemoveRespawnTime_calls {σ : Type} (B : RespawnBackend σ) (s : σ) (type spawnId : Nat)
    (dbTrans : CharacterDatabaseTransaction) (alwaysDeleteFromDB : Bool) :
    (∀ info, B.GetRespawnInfo s type spawnId = some info →
        RemoveRespawnTime B s type spawnId dbTrans alwaysDeleteFromDB =
          B.DeleteRespawnInfo s info dbTrans) ∧
      (B.GetRespawnInfo s type spawnId = none → alwaysDeleteFromDB = true →
        RemoveRespawnTime B s type spawnId dbTrans alwaysDeleteFromDB =
          B.DeleteRespawnInfoFromDB s type spawnId dbTrans) ∧
      (B.GetRespawnInfo s type spawnId = none → alwaysDeleteFromDB = false →
        RemoveRespawnTime B s type spawnId dbTrans alwaysDeleteFromDB = s) := by
  refine ⟨fun info h => ?_, fun h ha => ?_, fun h ha => ?_⟩
  · simp [RemoveRespawnTime, h]
  · simp [RemoveRespawnTime, h, ha]
  · simp [RemoveRespawnTime, h, ha]

/-- Witness of C8 on the recording backend: the calls made for a spawn that has
a record, and for one that has none with and without alwaysDeleteFromDB. -/
theorem RemoveRespawnTime_calls_witness :
    RemoveRespawnTime (recordingBackend findSeven) [] SPAWN_TYPE_CREATURE 7 none true
        = [RespawnCall.DeleteRespawnInfo 3 none] ∧
      RemoveRespawnTime (recordingBackend findSeven) [] SPAWN_TYPE_GAMEOBJECT 7 none true
        = [RespawnCall.DeleteRespawnInfoFromDB SPAWN_TYPE_GAMEOBJECT 7 none] ∧
      RemoveRespawnTime (recordingBackend findSeven) [] SPAWN_TYPE_GAMEOBJECT 7 none false
        = [] :=
  ⟨(RemoveRespawnTime_calls (recordingBackend findSeven) [] SPAWN_TYPE_CREATURE 7 none true).1
      3 rfl,
    (RemoveRespawnTime_calls (recordingBackend findSeven) [] SPAWN_TYPE_GAMEOBJECT 7 none
      true).2.1 rfl rfl,
    (RemoveRespawnTime_calls (recordingBackend findSeven) [] SPAWN_TYPE_GAMEOBJECT 7 none
      false).2.2 rfl rfl⟩

/-! ## The set of active non-player objects -/

theorem mem_setInsert (x a : Nat) (l : ActiveNonPlayers) :
    x ∈ setInsert a l ↔ x = a ∨ x ∈ l := by
  induction l with
  | nil => simp [setInsert]
  | cons y ys ih =>
    unfold setInsert
    split_ifs with h1 h2
    · simp
    · subst h2
      simp
    · rw [List.mem_cons, ih, List.mem_cons]
      tauto

theorem isSet_setInsert (a : Nat) (l : ActiveNonPlayers) (h : isSet l) :
    isSet (setInsert a l) := by
  unfold isSet at h ⊢
  induction l with
  | nil => simp [setInsert]
  | cons y ys ih =>
    rw [List.pairwise_cons] at h
    unfold setInsert
    split_ifs with h1 h2
    · rw [List.pairwise_cons, List.pairwise_cons]
      refine ⟨fun z hz => ?_, h⟩
      rcases List.mem_cons.1 hz with hz | hz
      · omega
      · exact lt_trans h1 (h.1 z hz)
    · rw [List.pairwise_cons]
      exact h
    · rw [List.pairwise_cons]
      refine ⟨fun z hz => ?_, ih h.2⟩
      rcases (mem_setInsert z a ys).1 hz with hz | hz
      · omega
      · exact h.1 z hz

theorem setInsert_of_mem (a : Nat) (l : ActiveNonPlayers) (h : isSet l) (ha : a ∈ l) :
    setInsert a l = l := by
  unfold isSet at h
  induction l with
  | nil => exact absurd ha (List.not_mem_nil _)
  | cons y ys ih =>
    rw [List.pairwise_cons] at h
    unfold setInsert
    rcases List.mem_cons.1 ha with hay | hays
    · subst hay
      simp
    · have hlt : y < a := h.1 a hays
      rw [if_neg (by omega), if_neg (by omega), ih h.2 hays]

theorem mem_setErase (x a : Nat) (l : ActiveNonPlayers) :
    x ∈ setErase a l ↔ x ∈ l ∧ x ≠ a := by
  simp [setErase, List.mem_filter]

theorem isSet_setErase (a : Nat) (l : ActiveNonPlayers) (h : isSet l) :
    isSet (setErase a l) :=
  List.Pairwise.filter _ h

theorem setErase_of_not_mem (a : Nat) (l : ActiveNonPlayers) (ha : a ∉ l) :
    setErase a l = l := by
  unfold setErase
  rw [List.filter_eq_self]
  intro x hx
  have : x ≠ a := fun h => ha (h ▸ hx)
  simpa using this

/-- The elements left by `RemoveFromActiveHelper`, whether an update pass is in
progress or not. -/
theorem RemoveFromActiveHelper_elements (s : ActiveObjects) (obj : Nat) :
    (RemoveFromActiveHelper s obj).m_activeNonPlayers = setErase obj s.m_activeNonPlayers := by
  unfold RemoveFromActiveHelper
  by_cases hit : s.m_activeNonPlayersIter = none
  · simp [hit]
  · by_cases hobj : obj ∈ s.m_activeNonPlayers
    · simp [hit, setFind, hobj]
    · simp [hit, setFind, hobj, setErase_of_not_mem obj _ hobj]

/-- C9: for every active-object set and every object, whatever the update
cursor: after AddToActiveHelper the object is a member, as is every earlier
member (and nothing else); after RemoveFromActiveHelper the object is no
member, and every other member still is (and nothing else); adding an object
that is present or removing one that is absent leaves the set as it is. -/
theorem active_helpers_membership (s : ActiveObjects) (obj : Nat)
    (hs : isSet s.m_activeNonPlayers) :
    (∀ x, x ∈ (AddToActiveHelper s obj).m_activeNonPlayers ↔
        x = obj ∨ x ∈ s.m_activeNonPlayers) ∧
      (∀ x, x ∈ (RemoveFromActiveHelper s obj).m_activeNonPlayers ↔
        x ∈ s.m_activeNonPlayers ∧ x ≠ obj) ∧
      (obj ∈ s.m_activeNonPlayers → AddToActiveHelper s obj = s) ∧
      (obj ∉ s.m_activeNonPlayers → RemoveFromActiveHelper s obj = s) ∧
      isSet (AddToActiveHelper s obj).m_activeNonPlayers ∧
      isSet (RemoveFromActiveHelper s obj).m_activeNonPlayers := by
  refine ⟨fun x => mem_setInsert x obj _, fun x => ?_, fun h => ?_, fun h => ?_,
    isSet_setInsert obj _ hs, ?_⟩
  · rw [RemoveFromActiveHelper_elements]
    exact mem_setErase x obj _
  · simp [AddToActiveHelper, setInsert_of_mem obj _ hs h]
  · unfold RemoveFromActiveHelper
    by_cases hit : s.m_activeNonPlayersIter = none
    · cases s with
      | mk elements iter =>
        simp only at hit h
        subst hit
        simp [setErase_of_not_mem obj _ h]
    · simp [hit, setFind, h]
  · rw [RemoveFromActiveHelper_elements]
    exact isSet_setErase obj _ hs

/-- Witness of C9 during an update pass that stands on the object removed. -/
theorem active_helpers_membership_witness :
    isSet activeMidUpdate.m_activeNonPlayers ∧
      (AddToActiveHelper activeMidUpdate 25).m_activeNonPlayers = [10, 20, 25, 30] ∧
      RemoveFromActiveHelper activeMidUpdate 20
        = { m_activeNonPlayers := [10, 30], m_activeNonPlayersIter := some 30 } ∧
      (20 ∈ activeMidUpdate.m_activeNonPlayers → AddToActiveHelper activeMidUpdate 20
        = activeMidUpdate) :=
  ⟨by decide, by decide, by decide,
    (active_helpers_membership activeMidUpdate 20 (by decide)).2.2.1⟩

/-! ## Grid unloading -/

theorem Tick_keeps (c : Cell) (elapsed : Nat)
    (h : ActiveObjectsNearGrid c = true ∨ GetUnloadLock c = true) :
    (Tick c elapsed).state = c.state ∧ (Tick c elapsed).pinCount = c.pinCount ∧
      (Tick c elapsed).activeEntities = c.activeEntities := by
  unfold Tick
  by_cases hu : c.state = CellState.Unloaded
  · simp [hu]
  · have hno : ∀ t : Nat, UnloadGrid { c with expiry := t } = (false, { c with expiry := t }) := by
      intro t
      unfold UnloadGrid
      rw [if_neg]
      rintro ⟨_, h2, h3⟩
      rcases h with h | h
      · simp only [ActiveObjectsNearGrid] at h h3
        rw [h] at h3
        cases h3
      · simp only [GetUnloadLock] at h h2
        rw [h] at h2
        cases h2
    simp only [if_neg hu, hno]
    split_ifs <;> simp

/-- C10: a cell that houses at least one Activated entity or whose unload lock
is set is refused by the unloading that expiry drives, and no run of ticks,
whatever the elapsed times, changes its state: it never becomes Unloaded. -/
theorem no_unload_while_active_or_locked (c : Cell) (elapsed : List Nat)
    (h : ActiveObjectsNearGrid c = true ∨ GetUnloadLock c = true) :
    UnloadGrid c = (false, c) ∧ (runTicks c elapsed).state = c.state ∧
      (c.state ≠ CellState.Unloaded → (runTicks c elapsed).state ≠ CellState.Unloaded) := by
  have hrun : ∀ (es : List Nat) (d : Cell),
      (ActiveObjectsNearGrid d = true ∨ GetUnloadLock d = true) →
        (runTicks d es).state = d.state := by
    intro es
    induction es with
    | nil => intro d _; rfl
    | cons e es ih =>
      intro d hd
      obtain ⟨h1, h2, h3⟩ := Tick_keeps d e hd
      have hd' : ActiveObjectsNearGrid (Tick d e) = true ∨ GetUnloadLock (Tick d e) = true := by
        simpa [ActiveObjectsNearGrid, GetUnloadLock, h2, h3] using hd
      have := ih (Tick d e) hd'
      simp only [runTicks, List.foldl_cons] at this ⊢
      rw [this, h1]
  refine ⟨?_, hrun elapsed c h, fun hne => ?_⟩
  · unfold UnloadGrid
    rw [if_neg]
    rintro ⟨_, h2, h3⟩
    rcases h with h | h
    · rw [h] at h3
      cases h3
    · rw [h] at h2
      cases h2
  · rw [hrun elapsed c h]
    exact hne

/-- Witness of C10: a cell with one Activated entity, and a pinned cell, stay
loaded through ticks that let the countdown run out; the same cell without pin
is unloaded by them. -/
theorem no_unload_while_active_or_locked_witness :
    (ActiveObjectsNearGrid activeCell = true ∨ GetUnloadLock activeCell = true) ∧
      (runTicks activeCell [3, 3, 100]).state = CellState.Loaded ∧
      (runTicks (GridMarkNoUnload idleCell) [3, 3, 100]).state = CellState.Loaded ∧
      (runTicks idleCell [3, 3, 100]).state = CellState.Unloaded :=
  ⟨by decide,
    (no_unload_while_active_or_locked activeCell [3, 3, 100] (by decide)).2.1,
    by decide, by decide⟩

/-! ## Grid identifiers -/

theorem encoded_lt (N x y : Nat) (hx : x < N) (hy : y < N) : y * N + x < N * N := by
  calc y * N + x < y * N + N := by omega
    _ = (y + 1) * N := by ring
    _ ≤ N * N := Nat.mul_le_mul_right N hy

/-- C11: with N = MAX_NUMBER_OF_GRIDS (positive, N * N within 32 bits), for all
x < N and y < N the grid id y * N + x is decoded by IsGridLoaded(uint32) to
the coordinate (x, y), which passes the assertion of getNGrid; and of an
arbitrary 32-bit grid id the decoded x is below N, and the decoded y is below N
if and only if the id is below N * N. -/
theorem gridId_decoding (N : Nat) (hN : 0 < N) (hNN : N * N ≤ 4294967296) :
    (∀ x y, x < N → y < N →
        gridCoordOfId N ((y * N + x) % 4294967296) = { x_coord := x, y_coord := y } ∧
        (∀ loaded : GridCoord → Bool,
          IsGridLoaded N loaded ((y * N + x) % 4294967296)
            = loaded { x_coord := x, y_coord := y }) ∧
        (∀ i_grids : Nat → Nat → Nat,
          getNGrid N i_grids (gridCoordOfId N ((y * N + x) % 4294967296)).x_coord
            (gridCoordOfId N ((y * N + x) % 4294967296)).y_coord = some (i_grids x y))) ∧
      (∀ gridId, gridId < 4294967296 →
        (gridCoordOfId N gridId).x_coord < N ∧
          ((gridCoordOfId N gridId).y_coord < N ↔ gridId < N * N)) := by
  constructor
  · intro x y hx hy
    have hlt : y * N + x < 4294967296 := lt_of_lt_of_le (encoded_lt N x y hx hy) hNN
    have hdec : gridCoordOfId N ((y * N + x) % 4294967296) = { x_coord := x, y_coord := y } := by
      rw [Nat.mod_eq_of_lt hlt]
      unfold gridCoordOfId
      have h1 : (y * N + x) % N = x := by
        rw [Nat.add_comm, Nat.add_mul_mod_self_right, Nat.mod_eq_of_lt hx]
      have h2 : (y * N + x) / N = y := by
        rw [Nat.add_comm, Nat.add_mul_div_right _ _ hN, Nat.div_eq_of_lt hx, Nat.zero_add]
      rw [h1, h2]
    refine ⟨hdec, fun loaded => ?_, fun i_grids => ?_⟩
    · unfold IsGridLoaded
      rw [hdec]
    · rw [hdec]
      simp [getNGrid, hx, hy]
  · intro gridId _
    exact ⟨Nat.mod_lt _ hN, Nat.div_lt_iff_lt_mul hN⟩

/-- Witness of C11 for 64 grids a side: the id of the grid (5, 63) is 4037. -/
theorem gridId_decoding_witness :
    ((0 : Nat) < 64 ∧ 64 * 64 ≤ 4294967296) ∧
      gridCoordOfId 64 4037 = { x_coord := 5, y_coord := 63 } ∧
      gridCoordOfId 64 ((63 * 64 + 5) % 4294967296) = { x_coord := 5, y_coord := 63 } :=
  ⟨⟨by decide, by decide⟩, by decide,
    ((gridId_decoding 64 (by decide) (by decide)).1 5 63 (by decide) (by decide)).1⟩

/-! ## The unload timer -/

/-- C17: for a timer `t` and a `diff` of 32 bits, CanUnload returns true if and
only if 0 < t ≤ diff; when it returns true or when t = 0 the timer is left as
it is; otherwise the timer becomes t - diff, which is strictly positive and
within 32 bits. -/
theorem CanUnload_spec (t diff : Nat) (ht : t < 4294967296) (hd : diff < 4294967296) :
    ((CanUnload t diff).1 = true ↔ 0 < t ∧ t ≤ diff) ∧
      (((CanUnload t diff).1 = true ∨ t = 0) → (CanUnload t diff).2 = t) ∧
      ((CanUnload t diff).1 = false → t ≠ 0 →
        (CanUnload t diff).2 = t - diff ∧ 0 < (CanUnload t diff).2 ∧
          (CanUnload t diff).2 < 4294967296) := by
  unfold CanUnload toUInt32
  by_cases h0 : t = 0
  · simp [h0]
  · by_cases hle : t ≤ diff
    · simp only [if_neg h0, if_pos hle]
      refine ⟨?_, fun _ => trivial, fun h => ?_⟩
      · simp only [true_iff]
        omega
      · cases h
    · simp only [if_neg h0, if_neg hle]
      refine ⟨?_, fun h => ?_, fun _ _ => ?_⟩
      · simp only [Bool.false_eq_true, false_iff]
        omega
      · rcases h with h | h
        · cases h
        · exact absurd h h0
      · omega

/-- Witness of C17: a timer of 10 is left at 7 by a diff of 3 and lets the map
unload on a diff of 10. -/
theorem CanUnload_spec_witness :
    ((10 : Nat) < 4294967296 ∧ (3 : Nat) < 4294967296) ∧
      CanUnload 10 3 = (false, 7) ∧ CanUnload 10 10 = (true, 10) ∧ CanUnload 0 10 = (false, 0) ∧
      ((CanUnload 10 3).1 = true ↔ 0 < 10 ∧ 10 ≤ 3) :=
  ⟨⟨by decide, by decide⟩, by decide, by decide, by decide,
    (CanUnload_spec 10 3 (by decide) (by decide)).1⟩

/-- Each call of a run of `CanUnload` made before the diffs add up to the timer
sees the timer less the diffs so far, and returns true exactly when its diff
makes up the rest. -/
theorem CanUnloadRun_get (ds : List Nat) :
    ∀ (t j : Nat), 0 < t → t < 4294967296 → j < ds.length → (ds.take j).sum < t →
      (CanUnloadRun t ds)[j]? =
        some (t - (ds.take j).sum, decide (t ≤ (ds.take (j + 1)).sum)) := by
  induction ds with
  | nil => intro t j _ _ hj; simp at hj
  | cons d ds ih =>
    intro t j ht0 ht hj hsum
    have h0 : t ≠ 0 := by omega
    cases j with
    | zero =>
      simp only [CanUnloadRun, CanUnload, if_neg h0, List.getElem?_cons_zero, List.take_zero,
        List.sum_nil, Nat.sub_zero, Nat.zero_add, List.take_succ_cons, List.sum_cons,
        Nat.add_zero]
      by_cases hle : t ≤ d <;> simp [hle]
    | succ j =>
      simp only [List.take_succ_cons, List.sum_cons] at hsum ⊢
      have hlt : ¬ t ≤ d := by omega
      have hstep : CanUnload t d = (false, t - d) := by
        simp only [CanUnload, if_neg h0, if_neg hlt, toUInt32]
        congr 1
        omega
      simp only [CanUnloadRun, hstep, List.getElem?_cons_succ]
      have hj' : j < ds.length := by simpa using hj
      rw [ih (t - d) j (by omega) (by omega) hj' (by omega)]
      have e1 : t - d - (List.take j ds).sum = t - (d + (List.take j ds).sum) := by omega
      have e2 : (t - d ≤ (List.take (j + 1) ds).sum) ↔ (t ≤ d + (List.take (j + 1) ds).sum) := by
        omega
      simp only [e1, decide_eq_decide.2 e2, List.take_succ_cons]

/-- C18: starting from a timer t > 0 and calling CanUnload with the diffs
d1, d2, ..., if k is the least number with d1 + ... + dk ≥ t (the first k - 1
diffs add up to less than t), then every earlier call returns false, the call
number k returns true, and before each of these calls the timer equals t less
the diffs of the calls before it.  Calls are counted from 0 in the list. -/
theorem CanUnloadRun_first_true (t : Nat) (ds : List Nat) (k : Nat) (ht0 : 0 < t)
    (ht : t < 4294967296) (hk : k < ds.length) (hbefore : (ds.take k).sum < t)
    (hreach : t ≤ (ds.take (k + 1)).sum) :
    (∀ j, j < k → (CanUnloadRun t ds)[j]? = some (t - (ds.take j).sum, false)) ∧
      (CanUnloadRun t ds)[k]? = some (t - (ds.take k).sum, true) := by
  have hmono : ∀ i j : Nat, i ≤ j → (ds.take i).sum ≤ (ds.take j).sum := by
    intro i j hij
    have hsub : List.Sublist (ds.take i) (ds.take j) :=
      List.take_sublist_take_left ds hij
    exact List.Sublist.sum_le_sum hsub (fun a _ => Nat.zero_le a)
  constructor
  · intro j hj
    have h1 : (ds.take j).sum < t := lt_of_le_of_lt (hmono j k (by omega)) hbefore
    have h2 : (ds.take (j + 1)).sum < t := lt_of_le_of_lt (hmono (j + 1) k (by omega)) hbefore
    rw [CanUnloadRun_get ds t j ht0 ht (by omega) h1]
    simp only [Option.some.injEq, Prod.mk.injEq, true_and, decide_eq_false_iff_not]
    omega
  · rw [CanUnloadRun_get ds t k ht0 ht hk hbefore]
    simp [hreach]

/-- Witness of C18: a timer of 10 and the diffs 3, 3, 5, 1; the third call is
the first one that returns true. -/
theorem CanUnloadRun_first_true_witness :
    ((0 : Nat) < 10 ∧ (10 : Nat) < 4294967296 ∧ 2 < [3, 3, 5, 1].length ∧
        ([3, 3, 5, 1].take 2).sum < 10 ∧ 10 ≤ ([3, 3, 5, 1].take 3).sum) ∧
      CanUnloadRun 10 [3, 3, 5, 1] = [(10, false), (7, false), (4, true), (4, false)] ∧
      (CanUnloadRun 10 [3, 3, 5, 1])[2]? = some (10 - ([3, 3, 5, 1].take 2).sum, true) :=
  ⟨⟨by decide, by decide, by decide, by decide, by decide⟩, by decide,
    (CanUnloadRun_first_true 10 [3, 3, 5, 1] 2 (by decide) (by decide) (by decide) (by decide)
      (by decide)).2⟩

/-! ## `_ModifyUInt32` -/

/-- C20, as stated, fails: with baseValue 2147483648, apply false and amount 1
the new baseValue is 0 instead of 2147483647, and amount is left negative. -/
theorem ModifyUInt32_large_base_counterexample :
    _ModifyUInt32 false 2147483648 1 = (false, 0, -2147483648) ∧
      (2147483648 : Nat) - min (1 : Int).natAbs 2147483648 = 2147483647 := by
  decide

/-- C20, amended: for every baseValue below 2^31, every amount above -2^31 and
every apply flag, when the operation in effect is a subtraction (apply false
with amount ≥ 0, or apply true with amount < 0), the new baseValue equals
baseValue - min(|amount|, baseValue), it is not above the old one, and amount
is left holding the non-negative quantity subtracted. -/
theorem ModifyUInt32_subtraction (apply : Bool) (baseValue : Nat) (amount : Int)
    (hb : baseValue < 2147483648) (ha1 : -2147483648 < amount) (ha2 : amount < 2147483648)
    (hsub : (apply = false ∧ 0 ≤ amount) ∨ (apply = true ∧ amount < 0)) :
    _ModifyUInt32 apply baseValue amount =
        (false, baseValue - min amount.natAbs baseValue,
          ((min amount.natAbs baseValue : Nat) : Int)) ∧
      (_ModifyUInt32 apply baseValue amount).2.1 ≤ baseValue := by
  have key : _ModifyUInt32 apply baseValue amount =
      (false, baseValue - min amount.natAbs baseValue,
        ((min amount.natAbs baseValue : Nat) : Int)) := by
    rcases hsub with ⟨hap, hpos⟩ | ⟨hap, hneg⟩
    · subst hap
      have h1 : ¬ amount < 0 := by omega
      have h2 : toInt32 (baseValue : Int) = (baseValue : Int) := by
        unfold toInt32
        omega
      simp only [_ModifyUInt32, if_neg h1, h2, Bool.false_eq_true, if_false]
      by_cases hgt : amount > (baseValue : Int)
      · simp only [if_pos hgt, toUInt32, Prod.mk.injEq, true_and]
        constructor <;> omega
      · simp only [if_neg hgt, toUInt32, Prod.mk.injEq, true_and]
        constructor <;> omega
    · subst hap
      have h2 : toInt32 (baseValue : Int) = (baseValue : Int) := by
        unfold toInt32
        omega
      have h3 : toInt32 (-amount) = -amount := by
        unfold toInt32
        omega
      simp only [_ModifyUInt32, if_pos hneg, h2, h3, Bool.not_true, Bool.false_eq_true, if_false]
      by_cases hgt : -amount > (baseValue : Int)
      · simp only [if_pos hgt, toUInt32, Prod.mk.injEq, true_and]
        constructor <;> omega
      · simp only [if_neg hgt, toUInt32, Prod.mk.injEq, true_and]
        constructor <;> omega
  refine ⟨key, ?_⟩
  rw [key]
  exact Nat.sub_le _ _

/-- Witness of the amended C20: 30 is taken off a base value of 20 by a bonus
of -30 being applied; the base value is left at 0 and 20 were subtracted. -/
theorem ModifyUInt32_subtraction_witness :
    ((20 : Nat) < 2147483648 ∧ (-2147483648 : Int) < -30 ∧ (-30 : Int) < 2147483648) ∧
      _ModifyUInt32 true 20 (-30) = (false, 0, 20) ∧
      (_ModifyUInt32 true 20 (-30)).2.1 ≤ 20 :=
  ⟨⟨by decide, by decide, by decide⟩, by decide,
    (ModifyUInt32_subtraction true 20 (-30) (by decide) (by decide) (by decide)
      (Or.inr ⟨rfl, by decide⟩)).2⟩

/-! ## `AreaTrigger` -/

theorem AddToWorld_of_inWorld {σ : Type} (E : AreaTriggerEnv σ) (t : AreaTrigger σ)
    (h : E.IsInWorld t.world = true) : AreaTrigger.AddToWorld E t = t := by
  simp [AreaTrigger.AddToWorld, h]

theorem AddToWorld_of_not_inWorld {σ : Type} (E : AreaTriggerEnv σ) (t : AreaTrigger σ)
    (h : E.IsInWorld t.world = false) :
    AreaTrigger.AddToWorld E t =
      { t with world := E.WorldObject_AddToWorld (E.ObjectsStore_Insert t.world) } := by
  simp [AreaTrigger.AddToWorld, h]

theorem Remove_of_not_inWorld {σ : Type} (E : AreaTriggerEnv σ) (t : AreaTrigger σ)
    (h : E.IsInWorld t.world = false) : AreaTrigger.Remove E t = t := by
  simp [AreaTrigger.Remove, h]

theorem Remove_of_inWorld {σ : Type} (E : AreaTriggerEnv σ) (t : AreaTrigger σ)
    (h : E.IsInWorld t.world = true) :
    AreaTrigger.Remove E t =
      { t with world := (E.AddObjectToRemoveList
          (E.ObjectsStore_Remove (E.WorldObject_RemoveFromWorld t.world))) } := by
  simp [AreaTrigger.Remove, AreaTrigger.RemoveFromWorld, h]

theorem Remove_duration {σ : Type} (E : AreaTriggerEnv σ) (t : AreaTrigger σ) :
    (AreaTrigger.Remove E t)._duration = t._duration := by
  cases h : E.IsInWorld t.world
  · rw [Remove_of_not_inWorld E t h]
  · rw [Remove_of_inWorld E t h]

/-- After `Remove` the trigger is not in world, if the `RemoveFromWorld` of the
base class takes it out and the later calls leave it out. -/
theorem Remove_not_inWorld {σ : Type} (E : AreaTriggerEnv σ) (t : AreaTrigger σ)
    (hout : ∀ w, E.IsInWorld (E.AddObjectToRemoveList
      (E.ObjectsStore_Remove (E.WorldObject_RemoveFromWorld w))) = false) :
    E.IsInWorld (AreaTrigger.Remove E t).world = false := by
  cases h : E.IsInWorld t.world
  · rw [Remove_of_not_inWorld E t h]
    exact h
  · rw [Remove_of_inWorld E t h]
    exact hout t.world

/-- C12: AddToWorld inserts the trigger into the object store only when the
trigger is not in world; on a trigger in world it changes nothing; and, the
AddToWorld of the base class putting the object in world, any number of
consecutive calls does what the first one does: one insertion at most. -/
theorem AreaTrigger_AddToWorld_once {σ : Type} (E : AreaTriggerEnv σ) (t : AreaTrigger σ) :
    (E.IsInWorld t.world = true → AreaTrigger.AddToWorld E t = t) ∧
      (E.IsInWorld t.world = false →
        AreaTrigger.AddToWorld E t =
          { t with world := E.WorldObject_AddToWorld (E.ObjectsStore_Insert t.world) }) ∧
      ((∀ w, E.IsInWorld (E.WorldObject_AddToWorld w) = true) →
        ∀ n : Nat, (AreaTrigger.AddToWorld E)^[n + 1] t = AreaTrigger.AddToWorld E t) := by
  refine ⟨AddToWorld_of_inWorld E t, AddToWorld_of_not_inWorld E t, fun hin n => ?_⟩
  have hfix : AreaTrigger.AddToWorld E (AreaTrigger.AddToWorld E t) = AreaTrigger.AddToWorld E t := by
    apply AddToWorld_of_inWorld
    cases h : E.IsInWorld t.world
    · rw [AddToWorld_of_not_inWorld E t h]
      exact hin _
    · rw [AddToWorld_of_inWorld E t h]
      exact h
  induction n with
  | zero => rfl
  | succ n ih =>
    rw [Function.iterate_succ_apply', ih, hfix]

/-- Witness of C12 on the recording environment: three calls on a trigger that
is not in world insert it once. -/
theorem AreaTrigger_AddToWorld_once_witness :
    (AreaTrigger.AddToWorld recordingTriggerEnv freshTrigger).world.calls
        = [TriggerCall.StoreInsert, TriggerCall.AddToWorld] ∧
      (AreaTrigger.AddToWorld recordingTriggerEnv)^[2 + 1] freshTrigger
        = AreaTrigger.AddToWorld recordingTriggerEnv freshTrigger :=
  ⟨by decide,
    (AreaTrigger_AddToWorld_once recordingTriggerEnv freshTrigger).2.2 (fun _ => rfl) 2⟩

/-- C13: Remove on a trigger in world takes it out of the world and of the
object store and queues it on the removal list, once; on a trigger not in
world it does nothing; and, the RemoveFromWorld of the base class taking the
object out of the world, a second Remove after the first one does nothing. -/
theorem AreaTrigger_Remove_once {σ : Type} (E : AreaTriggerEnv σ) (t : AreaTrigger σ) :
    (E.IsInWorld t.world = true →
        AreaTrigger.Remove E t =
          { t with world := (E.AddObjectToRemoveList
              (E.ObjectsStore_Remove (E.WorldObject_RemoveFromWorld t.world))) }) ∧
      (E.IsInWorld t.world = false → AreaTrigger.Remove E t = t) ∧
      ((∀ w, E.IsInWorld (E.AddObjectToRemoveList
          (E.ObjectsStore_Remove (E.WorldObject_RemoveFromWorld w))) = false) →
        AreaTrigger.Remove E (AreaTrigger.Remove E t) = AreaTrigger.Remove E t) :=
  ⟨Remove_of_inWorld E t, Remove_of_not_inWorld E t,
    fun hout => Remove_of_not_inWorld E _ (Remove_not_inWorld E t hout)⟩

/-- Witness of C13 on the recording environment: the calls of a Remove on a
trigger in world, and a second Remove that adds none. -/
theorem AreaTrigger_Remove_once_witness :
    (AreaTrigger.Remove recordingTriggerEnv liveTrigger).world.calls
        = [TriggerCall.RemoveFromWorld, TriggerCall.StoreRemove,
            TriggerCall.AddObjectToRemoveList] ∧
      AreaTrigger.Remove recordingTriggerEnv (AreaTrigger.Remove recordingTriggerEnv liveTrigger)
        = AreaTrigger.Remove recordingTriggerEnv liveTrigger :=
  ⟨by decide, (AreaTrigger_Remove_once recordingTriggerEnv liveTrigger).2.2 (fun _ => rfl)⟩

/-- C14: CreateAreaTrigger returns false for every position that is not valid,
the trigger having then been given its map and its position only (neither
_Create nor AddToMap has been called); and it returns true only if the
position is valid and AddToMap succeeded. -/
theorem AreaTrigger_CreateAreaTrigger_result {σ F : Type} (E : AreaTriggerCreateEnv σ F)
    (t : AreaTrigger σ) (guidlow triggerEntry caster : Nat) (spell : SpellInfo)
    (pos : Position F) :
    (E.IsPositionValid (E.Relocate (E.SetMap t.world caster) pos) = false →
        AreaTrigger.CreateAreaTrigger E t guidlow triggerEntry caster spell pos =
          (false, { t with world := E.Relocate (E.SetMap t.world caster) pos })) ∧
      ((AreaTrigger.CreateAreaTrigger E t guidlow triggerEntry caster spell pos).1 = true →
        E.IsPositionValid (E.Relocate (E.SetMap t.world caster) pos) = true ∧
          ∃ w, (E.AddToMap w).1 = true ∧
            (E.AddToMap w).2 =
              (AreaTrigger.CreateAreaTrigger E t guidlow triggerEntry caster spell pos).2.world) := by
  constructor
  · intro h
    simp [AreaTrigger.CreateAreaTrigger, h]
  · intro h
    cases hv : E.IsPositionValid (E.Relocate (E.SetMap t.world caster) pos)
    · simp [AreaTrigger.CreateAreaTrigger, hv] at h
    · refine ⟨rfl, ?_⟩
      simp only [AreaTrigger.CreateAreaTrigger, hv, Bool.not_true, Bool.false_eq_true,
        if_false] at h ⊢
      split_ifs at h ⊢ with hadd
      exact ⟨_, by simpa using hadd, rfl⟩

/-- Witness of C14 on the recording environment: at an invalid position only
SetMap and Relocate have been called. -/
theorem AreaTrigger_CreateAreaTrigger_result_witness :
    AreaTrigger.CreateAreaTrigger recordingCreateEnv freshTrigger 1 2 3 exampleSpell
        { x := -1, y := 0, z := 0 } =
      (false,
        { _duration := 5,
          world := { inWorld := false, positionValid := false, mapAccepts := true,
                     calls := [TriggerCall.SetMap, TriggerCall.Relocate] } }) :=
  (AreaTrigger_CreateAreaTrigger_result recordingCreateEnv freshTrigger 1 2 3 exampleSpell
    { x := -1, y := 0, z := 0 }).1 rfl

/-- C15, as stated, fails: with 5 units of duration left and p_time
4294967295, which is not below the duration, the trigger is not removed and
its duration grows to 6. -/
theorem AreaTrigger_Update_counterexample :
    liveTrigger._duration = 5 ∧
      (AreaTrigger.Update recordingTriggerEnv liveTrigger 4294967295)._duration = 6 ∧
      (AreaTrigger.Update recordingTriggerEnv liveTrigger 4294967295).world.inWorld = true ∧
      (AreaTrigger.Update recordingTriggerEnv liveTrigger 4294967295).world.calls
        = [TriggerCall.Update 4294967295] := by
  decide

/-- C15, amended: for every remaining duration d (an int32) and every p_time
below 2^31, Update either (d > p_time) reduces the duration by exactly p_time
without removing the trigger, or (d ≤ p_time) removes the trigger as expired
and leaves the duration as it is; so that, the base class taking a removed
object out of the world and its Update leaving that as it is, a trigger that is
in world after Update has a strictly positive duration left. -/
theorem AreaTrigger_Update_duration {σ : Type} (E : AreaTriggerEnv σ) (t : AreaTrigger σ)
    (p_time : Nat) (hd1 : -2147483648 ≤ t._duration) (hd2 : t._duration < 2147483648)
    (hp : p_time < 2147483648) :
    (t._duration > (p_time : Int) →
        AreaTrigger.Update E t p_time =
          { _duration := t._duration - (p_time : Int),
            world := E.WorldObject_Update t.world p_time }) ∧
      (t._duration ≤ (p_time : Int) →
        AreaTrigger.Update E t p_time =
          { _duration := t._duration,
            world := E.WorldObject_Update (AreaTrigger.Remove E t).world p_time }) ∧
      ((∀ w, E.IsInWorld (E.AddObjectToRemoveList
          (E.ObjectsStore_Remove (E.WorldObject_RemoveFromWorld w))) = false) →
        (∀ w p, E.IsInWorld (E.WorldObject_Update w p) = E.IsInWorld w) →
        E.IsInWorld (AreaTrigger.Update E t p_time).world = true →
        0 < (AreaTrigger.Update E t p_time)._duration) := by
  have hcast : toInt32 (p_time : Int) = (p_time : Int) := by
    unfold toInt32
    omega
  have hgt : t._duration > (p_time : Int) →
      AreaTrigger.Update E t p_time =
        { _duration := t._duration - (p_time : Int),
          world := E.WorldObject_Update t.world p_time } := by
    intro h
    have hsub : toInt32 (t._duration - (p_time : Int)) = t._duration - (p_time : Int) := by
      unfold toInt32
      omega
    simp [AreaTrigger.Update, hcast, h, hsub]
  have hle : t._duration ≤ (p_time : Int) →
      AreaTrigger.Update E t p_time =
        { _duration := t._duration,
          world := E.WorldObject_Update (AreaTrigger.Remove E t).world p_time } := by
    intro h
    have h' : ¬ t._duration > (p_time : Int) := by omega
    simp only [AreaTrigger.Update, hcast, if_neg h', Remove_duration]
  refine ⟨hgt, hle, fun hout hupd hin => ?_⟩
  by_cases h : t._duration > (p_time : Int)
  · rw [hgt h]
    show 0 < t._duration - (p_time : Int)
    omega
  · rw [hle (by omega)] at hin
    simp only [hupd, Remove_not_inWorld E t hout] at hin
    cases hin

/-- Witness of the amended C15 on the recording environment: 3 of 5 units are
taken off, and on a p_time of 5 the trigger is removed with its duration left
at 5. -/
theorem AreaTrigger_Update_duration_witness :
    ((-2147483648 : Int) ≤ liveTrigger._duration ∧ liveTrigger._duration < 2147483648 ∧
        (3 : Nat) < 2147483648) ∧
      AreaTrigger.Update recordingTriggerEnv liveTrigger 3 =
        { _duration := 5 - ((3 : Nat) : Int),
          world := recordingTriggerEnv.WorldObject_Update liveTrigger.world 3 } ∧
      (AreaTrigger.Update recordingTriggerEnv liveTrigger 3)._duration = 2 ∧
      (AreaTrigger.Update recordingTriggerEnv liveTrigger 5)._duration = 5 ∧
      (AreaTrigger.Update recordingTriggerEnv liveTrigger 5).world.calls
        = [TriggerCall.RemoveFromWorld, TriggerCall.StoreRemove,
            TriggerCall.AddObjectToRemoveList, TriggerCall.Update 5] :=
  ⟨⟨by decide, by decide, by decide⟩,
    (AreaTrigger_Update_duration recordingTriggerEnv liveTrigger 3 (by decide) (by decide)
      (by decide)).1 (by decide),
    by decide, by decide, by decide⟩

/-! ## The update cursor of the active objects -/

/-- The increment of an iterator on `x` yields the least element above `x`. -/
theorem setNext_some {x y : Nat} {l : ActiveNonPlayers} (hl : isSet l)
    (h : setNext x l = some y) : y ∈ l ∧ x < y ∧ ∀ z ∈ l, x < z → y ≤ z := by
  unfold setNext at h
  have hsorted : (l.filter (fun z => decide (x < z))).Pairwise (fun a b => a < b) :=
    List.Pairwise.filter _ hl
  cases hf : l.filter (fun z => decide (x < z)) with
  | nil =>
    rw [hf] at h
    cases h
  | cons w rest =>
    rw [hf] at h hsorted
    simp only [List.head?_cons, Option.some.injEq] at h
    subst h
    have hmem : w ∈ l.filter (fun z => decide (x < z)) := by
      rw [hf]
      exact List.mem_cons_self _ _
    rw [List.mem_filter] at hmem
    refine ⟨hmem.1, by simpa using hmem.2, fun z hz hxz => ?_⟩
    have hz' : z ∈ l.filter (fun z => decide (x < z)) := by
      rw [List.mem_filter]
      exact ⟨hz, by simpa using hxz⟩
    rw [hf] at hz'
    rcases List.mem_cons.1 hz' with hzw | hzr
    · omega
    · exact le_of_lt ((List.pairwise_cons.1 hsorted).1 z hzr)

/-- The increment of an iterator on `x` yields `end()` when no element is above
`x`. -/
theorem setNext_none {x : Nat} {l : ActiveNonPlayers} (h : setNext x l = none) :
    ∀ z ∈ l, z ≤ x := by
  unfold setNext at h
  intro z hz
  by_contra hlt
  have hz' : z ∈ l.filter (fun z => decide (x < z)) := by
    rw [List.mem_filter]
    exact ⟨hz, by simpa using hlt⟩
  cases hf : l.filter (fun z => decide (x < z)) with
  | nil =>
    rw [hf] at hz'
    exact absurd hz' (List.not_mem_nil _)
  | cons w rest =>
    rw [hf] at h
    cases h

/-- C16: if before RemoveFromActiveHelper(obj) the update cursor is end or
designates a member of the set, then afterwards it is end or designates an
element that is still a member; if it designated obj, it now designates the
successor of obj in the order of the set (the least member above obj, or end if
there is none), and otherwise it is as before. -/
theorem RemoveFromActiveHelper_cursor (s : ActiveObjects) (obj : Nat)
    (hs : isSet s.m_activeNonPlayers)
    (hcur : s.m_activeNonPlayersIter = none ∨
      ∃ x ∈ s.m_activeNonPlayers, s.m_activeNonPlayersIter = some x) :
    ((RemoveFromActiveHelper s obj).m_activeNonPlayersIter = none ∨
        ∃ x ∈ (RemoveFromActiveHelper s obj).m_activeNonPlayers,
          (RemoveFromActiveHelper s obj).m_activeNonPlayersIter = some x) ∧
      (s.m_activeNonPlayersIter = some obj →
        ((RemoveFromActiveHelper s obj).m_activeNonPlayersIter = none ∧
            ∀ z ∈ s.m_activeNonPlayers, z ≤ obj) ∨
          ∃ y, (RemoveFromActiveHelper s obj).m_activeNonPlayersIter = some y ∧
            y ∈ s.m_activeNonPlayers ∧ obj < y ∧
            ∀ z ∈ s.m_activeNonPlayers, obj < z → y ≤ z) ∧
      (s.m_activeNonPlayersIter ≠ some obj →
        (RemoveFromActiveHelper s obj).m_activeNonPlayersIter = s.m_activeNonPlayersIter) := by
  have hset := RemoveFromActiveHelper_elements s obj
  rcases hcur with hnone | ⟨x, hx, hsome⟩
  · have hiter : (RemoveFromActiveHelper s obj).m_activeNonPlayersIter = none := by
      simp [RemoveFromActiveHelper, hnone]
    refine ⟨Or.inl hiter, fun h => ?_, fun _ => ?_⟩
    · rw [hnone] at h
      cases h
    · rw [hiter, hnone]
  · by_cases hxo : x = obj
    · subst hxo
      have hiter : (RemoveFromActiveHelper s x).m_activeNonPlayersIter
          = setNext x s.m_activeNonPlayers := by
        simp [RemoveFromActiveHelper, hsome, setFind, hx]
      have hsucc : ((RemoveFromActiveHelper s x).m_activeNonPlayersIter = none ∧
            ∀ z ∈ s.m_activeNonPlayers, z ≤ x) ∨
          ∃ y, (RemoveFromActiveHelper s x).m_activeNonPlayersIter = some y ∧
            y ∈ s.m_activeNonPlayers ∧ x < y ∧
            ∀ z ∈ s.m_activeNonPlayers, x < z → y ≤ z := by
        rw [hiter]
        cases hn : setNext x s.m_activeNonPlayers with
        | none => exact Or.inl ⟨rfl, setNext_none hn⟩
        | some y => exact Or.inr ⟨y, rfl, setNext_some hs hn⟩
      refine ⟨?_, fun _ => hsucc, fun h => absurd hsome h⟩
      rcases hsucc with ⟨h, _⟩ | ⟨y, hy, hmem, hlt, _⟩
      · exact Or.inl h
      · refine Or.inr ⟨y, ?_, hy⟩
        rw [hset, mem_setErase]
        exact ⟨hmem, by omega⟩
    · have hiter : (RemoveFromActiveHelper s obj).m_activeNonPlayersIter = some x := by
        unfold RemoveFromActiveHelper
        by_cases hobj : obj ∈ s.m_activeNonPlayers
        · have hne : ¬ obj = x := fun h => hxo h.symm
          simp [hsome, setFind, hobj, hne]
        · simp [hsome, setFind, hobj]
      refine ⟨Or.inr ⟨x, ?_, hiter⟩, fun h => ?_, fun _ => ?_⟩
      · rw [hset, mem_setErase]
        exact ⟨hx, hxo⟩
      · rw [hsome] at h
        exact absurd (Option.some.inj h) hxo
      · rw [hiter, hsome]

/-- Witness of C16: removing the object the update pass stands on moves the
cursor to the next one, or to the end after the last one. -/
theorem RemoveFromActiveHelper_cursor_witness :
    (isSet activeMidUpdate.m_activeNonPlayers ∧
        ∃ x ∈ activeMidUpdate.m_activeNonPlayers,
          activeMidUpdate.m_activeNonPlayersIter = some x) ∧
      (RemoveFromActiveHelper activeMidUpdate 20).m_activeNonPlayersIter = some 30 ∧
      (RemoveFromActiveHelper activeAtLast 30).m_activeNonPlayersIter = none ∧
      ((RemoveFromActiveHelper activeMidUpdate 10).m_activeNonPlayersIter
        = activeMidUpdate.m_activeNonPlayersIter) :=
  ⟨⟨by decide, 20, by decide, rfl⟩, by decide, by decide,
    (RemoveFromActiveHelper_cursor activeMidUpdate 10 (by decide)
      (Or.inr ⟨20, by decide, rfl⟩)).2.2 (by decide)⟩

/-! ## `Map::Visit` -/

/-- C19: Visit on a cell flagged NoCreate whose grid is not loaded neither
calls EnsureGridLoaded nor runs the visitor: the map is as before.  In every
other case, the grid coordinates of the cell being below MAX_NUMBER_OF_GRIDS,
EnsureGridLoaded(cell) is called and then the visitor is run on the cell
(CellX, CellY) of the grid (GridX, GridY). -/
theorem Visit_spec {σ κ γ ν : Type} (E : VisitEnv σ κ γ ν) (s : σ) (cell : κ) (visitor : ν) :
    (E.NoCreate cell = true →
        E.IsGridLoaded s { x_coord := E.GridX cell, y_coord := E.GridY cell } = false →
        Visit E s cell visitor = some s) ∧
      ((E.NoCreate cell = false ∨
          E.IsGridLoaded s { x_coord := E.GridX cell, y_coord := E.GridY cell } = true) →
        E.GridX cell < E.MAX_NUMBER_OF_GRIDS → E.GridY cell < E.MAX_NUMBER_OF_GRIDS →
        Visit E s cell visitor =
          some (E.VisitGrid (E.EnsureGridLoaded s cell)
            (E.i_grids (E.EnsureGridLoaded s cell) (E.GridX cell) (E.GridY cell))
            (E.CellX cell) (E.CellY cell) visitor)) := by
  constructor
  · intro h1 h2
    simp [Visit, h1, h2]
  · intro h hx hy
    have hcond : (!E.NoCreate cell ||
        E.IsGridLoaded s { x_coord := E.GridX cell, y_coord := E.GridY cell }) = true := by
      rcases h with h | h <;> simp [h]
    simp [Visit, hcond, getNGrid, hx, hy]

/-- Witness of C19 on the recording environment with 64 grids a side: no call
for a NoCreate cell of a grid that is not loaded, the two calls otherwise. -/
theorem Visit_spec_witness :
    Visit (recordingVisitEnv 64 []) [] noCreateCell () = some [] ∧
      Visit (recordingVisitEnv 64 [(3, 4)]) [] noCreateCell ()
        = some [VisitCall.EnsureGridLoaded 3 4, VisitCall.VisitGrid 3 4 1 2] ∧
      Visit (recordingVisitEnv 64 []) [] loadingCell ()
        = some [VisitCall.EnsureGridLoaded 3 4, VisitCall.VisitGrid 3 4 1 2] :=
  ⟨(Visit_spec (recordingVisitEnv 64 []) [] noCreateCell ()).1 rfl rfl,
    (Visit_spec (recordingVisitEnv 64 [(3, 4)]) [] noCreateCell ()).2 (Or.inr (by decide))
      (by decide) (by decide),
    (Visit_spec (recordingVisitEnv 64 []) [] loadingCell ()).2 (Or.inl rfl)
      (by decide) (by decide)⟩

/-! ## Applying and un-applying a spell power bonus -/

/-- An addition in effect that stays within 31 bits adds the absolute value of
the amount. -/
theorem ModifyUInt32_of_add (apply : Bool) (b : Nat) (a : Int)
    (hadd : (apply = true ∧ 0 ≤ a) ∨ (apply = false ∧ a < 0))
    (hfit : (b : Int) + |a| < 2147483648) :
    (_ModifyUInt32 apply b a).2.1 = b + a.natAbs := by
  rcases hadd with ⟨hap, ha⟩ | ⟨hap, ha⟩
  · subst hap
    have h1 : ¬ a < 0 := by omega
    have h2 : |a| = a := abs_of_nonneg ha
    simp only [_ModifyUInt32, if_neg h1, if_true, toUInt32]
    omega
  · subst hap
    have h2 : |a| = -a := abs_of_neg ha
    have h3 : toInt32 (-a) = -a := by
      unfold toInt32
      omega
    simp only [_ModifyUInt32, if_pos ha, h3, Bool.not_false, if_true, toUInt32]
    omega

/-- A subtraction in effect of no more than the base value, which is within 31
bits, takes the absolute value of the amount off. -/
theorem ModifyUInt32_of_sub (apply : Bool) (b : Nat) (a : Int)
    (hsub : (apply = false ∧ 0 ≤ a) ∨ (apply = true ∧ a < 0))
    (hle : |a| ≤ (b : Int)) (hb : b < 2147483648) :
    (_ModifyUInt32 apply b a).2.1 = b - a.natAbs := by
  have hcast : toInt32 (b : Int) = (b : Int) := by
    unfold toInt32
    omega
  rcases hsub with ⟨hap, ha⟩ | ⟨hap, ha⟩
  · subst hap
    have h1 : ¬ a < 0 := by omega
    have h2 : |a| = a := abs_of_nonneg ha
    have h4 : ¬ a > (b : Int) := by omega
    simp only [_ModifyUInt32, if_neg h1, hcast, if_neg h4, Bool.false_eq_true, if_false, toUInt32]
    omega
  · subst hap
    have h2 : |a| = -a := abs_of_neg ha
    have h3 : toInt32 (-a) = -a := by
      unfold toInt32
      omega
    have h4 : ¬ -a > (b : Int) := by omega
    simp only [_ModifyUInt32, if_pos ha, h3, hcast, if_neg h4, Bool.not_true, Bool.false_eq_true,
      if_false, toUInt32]
    omega

/-- The base value after `_ModifyUInt32(true, b, a)` and then
`_ModifyUInt32(false, ., a)`, where the first call neither clamps nor leaves
31 bits. -/
theorem ModifyUInt32_apply_unapply (b : Nat) (a : Int)
    (h : (0 ≤ a ∧ (b : Int) + a < 2147483648) ∨ (a < 0 ∧ -a ≤ (b : Int) ∧ b < 2147483648)) :
    (_ModifyUInt32 false (_ModifyUInt32 true b a).2.1 a).2.1 = b := by
  rcases h with ⟨ha, hfit⟩ | ⟨ha, hle, hb⟩
  · have h2 : |a| = a := abs_of_nonneg ha
    rw [ModifyUInt32_of_add true b a (Or.inl ⟨rfl, ha⟩) (by omega)]
    rw [ModifyUInt32_of_sub false _ a (Or.inl ⟨rfl, ha⟩) (by omega) (by omega)]
    omega
  · have h2 : |a| = -a := abs_of_neg ha
    rw [ModifyUInt32_of_sub true b a (Or.inr ⟨rfl, ha⟩) (by omega) hb]
    rw [ModifyUInt32_of_add false _ a (Or.inr ⟨rfl, ha⟩) (by omega)]
    omega

/-- The calls of `ApplyModUInt32Value` in the loop over the spell schools leave
the aura as it is, if each of them does. -/
theorem foldl_ApplyModUInt32Value_aura {σ : Type} (E : SpellPowerEnv σ)
    (haura : ∀ s i v ap, E.HasOverrideSpellPowerAura (E.ApplyModUInt32Value s i v ap)
      = E.HasOverrideSpellPowerAura s)
    (v : Int) (ap : Bool) (l : List Nat) :
    ∀ s, E.HasOverrideSpellPowerAura
        (l.foldl (fun s i => E.ApplyModUInt32Value s (E.PLAYER_FIELD_MOD_DAMAGE_DONE_POS + i) v ap) s)
      = E.HasOverrideSpellPowerAura s := by
  induction l with
  | nil => intro s; rfl
  | cons i l ih =>
    intro s
    rw [List.foldl_cons, ih, haura]

/-- What `ApplySpellPowerBonus` does to `m_baseSpellPower` and to the aura. -/
theorem ApplySpellPowerBonus_base {σ : Type} (E : SpellPowerEnv σ)
    (haura : ∀ s i v ap, E.HasOverrideSpellPowerAura (E.ApplyModUInt32Value s i v ap)
      = E.HasOverrideSpellPowerAura s)
    (p : Player σ) (a : Int) (apply : Bool) :
    E.HasOverrideSpellPowerAura (Player.ApplySpellPowerBonus E p a apply).rest
        = E.HasOverrideSpellPowerAura p.rest ∧
      (Player.ApplySpellPowerBonus E p a apply).m_baseSpellPower =
        if E.HasOverrideSpellPowerAura p.rest then p.m_baseSpellPower
        else (_ModifyUInt32 apply p.m_baseSpellPower a).2.1 := by
  unfold Player.ApplySpellPowerBonus
  cases h : E.HasOverrideSpellPowerAura p.rest
  · simp only [Bool.false_eq_true, if_false, foldl_ApplyModUInt32Value_aura E haura, haura, h,
      and_self]
  · simp [h]

/-- C21, as stated, fails: a base value of 5 with a bonus of -10 applied and
then un-applied ends at 10, the first call having clamped the subtraction to
5. -/
theorem ModifyUInt32_round_trip_counterexample :
    ((5 : Nat) + (-10 : Int).natAbs ≤ 4294967295) ∧
      _ModifyUInt32 true 5 (-10) = (false, 0, 5) ∧
      _ModifyUInt32 false 0 (-10) = (true, 10, 10) ∧
      (_ModifyUInt32 false (_ModifyUInt32 true 5 (-10)).2.1 (-10)).2.1 = 10 ∧
      (Player.ApplySpellPowerBonus recordingSpellPowerEnv
        (Player.ApplySpellPowerBonus recordingSpellPowerEnv fivePowerPlayer (-10) true)
        (-10) false).m_baseSpellPower = 10 := by
  decide

/-- C21, amended: applying and then un-applying the same bonus restores the
base value for every baseValue b and every amount a such that either a ≥ 0 and
b + a is below 2^31, or a < 0, |a| ≤ b and b is below 2^31:
_ModifyUInt32(true, b, a) followed by _ModifyUInt32(false, ., a) leaves
baseValue equal to b, and ApplySpellPowerBonus(a, true) followed by
ApplySpellPowerBonus(a, false) restores m_baseSpellPower (the aura that
overrides the spell power not being touched by ApplyModUInt32Value). -/
theorem ModifyUInt32_round_trip (b : Nat) (a : Int)
    (h : (0 ≤ a ∧ (b : Int) + a < 2147483648) ∨ (a < 0 ∧ -a ≤ (b : Int) ∧ b < 2147483648)) :
    (_ModifyUInt32 false (_ModifyUInt32 true b a).2.1 a).2.1 = b ∧
      ∀ (σ : Type) (E : SpellPowerEnv σ) (p : Player σ), p.m_baseSpellPower = b →
        (∀ s i v ap, E.HasOverrideSpellPowerAura (E.ApplyModUInt32Value s i v ap)
          = E.HasOverrideSpellPowerAura s) →
        (Player.ApplySpellPowerBonus E (Player.ApplySpellPowerBonus E p a true) a
          false).m_baseSpellPower = b := by
  refine ⟨ModifyUInt32_apply_unapply b a h, fun σ E p hp haura => ?_⟩
  obtain ⟨h1, h2⟩ := ApplySpellPowerBonus_base E haura p a true
  obtain ⟨_, h4⟩ := ApplySpellPowerBonus_base E haura (Player.ApplySpellPowerBonus E p a true) a false
  rw [h4, h1, h2]
  cases E.HasOverrideSpellPowerAura p.rest
  · simp only [Bool.false_eq_true, if_false, hp]
    exact ModifyUInt32_apply_unapply b a h
  · simpa using hp

/-- Witness of the amended C21: a bonus of -3 on a base value of 5 takes it to
2 and back to 5. -/
theorem ModifyUInt32_round_trip_witness :
    ((-3 : Int) < 0 ∧ -(-3 : Int) ≤ ((5 : Nat) : Int) ∧ (5 : Nat) < 2147483648) ∧
      _ModifyUInt32 true 5 (-3) = (false, 2, 3) ∧
      (_ModifyUInt32 false (_ModifyUInt32 true 5 (-3)).2.1 (-3)).2.1 = 5 :=
  ⟨⟨by decide, by decide, by decide⟩, by decide,
    (ModifyUInt32_round_trip 5 (-3) (Or.inr ⟨by decide, by decide, by decide⟩)).1⟩

/-! ## Diminishing returns -/

/-- The result of `CalculateDiminishingReturns` for a class whose entries in the
two tables are `k` and `c`. -/
theorem CalculateDiminishingReturns_eq (capArray : List ℚ) (playerClass : Nat) (c k n x : ℚ)
    (hk : m_diminishing_k[toUInt32 ((playerClass : Int) - 1)]? = some k)
    (hc : capArray[toUInt32 ((playerClass : Int) - 1)]? = some c) :
    CalculateDiminishingReturns capArray playerClass n x = some (c * x / (x + c * k) + n) := by
  simp only [CalculateDiminishingReturns, hk, hc]

/-- The diminished part grows with the diminishing value and stays below the
cap. -/
theorem diminished_mono {c k x y : ℚ} (hc : 0 < c) (hk : 0 < k) (hx : 0 ≤ x) (hxy : x ≤ y) :
    0 ≤ c * x / (x + c * k) ∧ c * x / (x + c * k) ≤ c * y / (y + c * k) ∧
      c * y / (y + c * k) < c := by
  have hck : 0 < c * k := mul_pos hc hk
  have hdx : 0 < x + c * k := by linarith
  have hdy : 0 < y + c * k := by linarith
  refine ⟨div_nonneg (mul_nonneg hc.le hx) hdx.le, ?_, ?_⟩
  · rw [div_le_div_iff₀ hdx hdy]
    have h1 : 0 ≤ c * (c * k) * (y - x) :=
      mul_nonneg (mul_nonneg hc.le hck.le) (by linarith)
    nlinarith [h1]
  · rw [div_lt_iff₀ hdy]
    nlinarith [mul_pos hc hck]

/-- C22: over the rationals, for a class with cap c > 0 and constant k > 0 and
a diminishing value x > 0, the diminished part
x' = CalculateDiminishingReturns(capArray, class, 0, x) is c*x / (x + c*k), it
satisfies 1/x' = 1/c + k/x, and the result for a non-diminishing value n is
x' + n. -/
theorem CalculateDiminishingReturns_formula (capArray : List ℚ) (playerClass : Nat)
    (c k n x : ℚ)
    (hk : m_diminishing_k[toUInt32 ((playerClass : Int) - 1)]? = some k)
    (hc : capArray[toUInt32 ((playerClass : Int) - 1)]? = some c)
    (hc0 : 0 < c) (hk0 : 0 < k) (hx : 0 < x) :
    ∃ x', CalculateDiminishingReturns capArray playerClass 0 x = some x' ∧
      x' = c * x / (x + c * k) ∧ 1 / x' = 1 / c + k / x ∧
      CalculateDiminishingReturns capArray playerClass n x = some (x' + n) := by
  refine ⟨c * x / (x + c * k), ?_, rfl, ?_, ?_⟩
  · rw [CalculateDiminishingReturns_eq capArray playerClass c k 0 x hk hc, add_zero]
  · have hd : 0 < x + c * k := by
      have := mul_pos hc0 hk0
      linarith
    field_simp
    ring
  · exact CalculateDiminishingReturns_eq capArray playerClass c k n x hk hc

/-- Witness of C22: the dodge of a warrior (class 1) from a diminishing value of
10 on top of a non-diminishing value of 5. -/
theorem CalculateDiminishingReturns_formula_witness :
    (m_diminishing_k[toUInt32 (((1 : Nat) : Int) - 1)]? = some (956 / 1000) ∧
        dodge_cap[toUInt32 (((1 : Nat) : Int) - 1)]? = some (65631440 / 1000000)) ∧
      ∃ x', CalculateDiminishingReturns dodge_cap 1 0 10 = some x' ∧
        x' = 65631440 / 1000000 * 10 / (10 + 65631440 / 1000000 * (956 / 1000)) ∧
        1 / x' = 1 / (65631440 / 1000000) + 956 / 1000 / 10 ∧
        CalculateDiminishingReturns dodge_cap 1 5 10 = some (x' + 5) :=
  ⟨⟨rfl, rfl⟩,
    CalculateDiminishingReturns_formula dodge_cap 1 (65631440 / 1000000) (956 / 1000) 5 10
      rfl rfl (by norm_num) (by norm_num) (by norm_num)⟩

/-- C23: over the rationals, for a class with cap c > 0 and constant k > 0 and
all 0 ≤ x ≤ y, the diminished parts satisfy
0 ≤ c*x / (x + c*k) ≤ c*y / (y + c*k) < c, so that the result stays below
nonDiminishValue + c. -/
theorem CalculateDiminishingReturns_bounded_monotone (capArray : List ℚ) (playerClass : Nat)
    (c k x y : ℚ)
    (hk : m_diminishing_k[toUInt32 ((playerClass : Int) - 1)]? = some k)
    (hc : capArray[toUInt32 ((playerClass : Int) - 1)]? = some c)
    (hc0 : 0 < c) (hk0 : 0 < k) (hx : 0 ≤ x) (hxy : x ≤ y) :
    ∃ dx dy, CalculateDiminishingReturns capArray playerClass 0 x = some dx ∧
      CalculateDiminishingReturns capArray playerClass 0 y = some dy ∧
      dx = c * x / (x + c * k) ∧ dy = c * y / (y + c * k) ∧
      0 ≤ dx ∧ dx ≤ dy ∧ dy < c ∧
      ∀ n : ℚ, ∃ r, CalculateDiminishingReturns capArray playerClass n y = some r ∧ r < n + c := by
  obtain ⟨h0, h1, h2⟩ := diminished_mono hc0 hk0 hx hxy
  refine ⟨c * x / (x + c * k), c * y / (y + c * k), ?_, ?_, rfl, rfl, h0, h1, h2, fun n => ?_⟩
  · rw [CalculateDiminishingReturns_eq capArray playerClass c k 0 x hk hc, add_zero]
  · rw [CalculateDiminishingReturns_eq capArray playerClass c k 0 y hk hc, add_zero]
  · exact ⟨_, CalculateDiminishingReturns_eq capArray playerClass c k n y hk hc, by linarith⟩

/-- Witness of C23: the parry of a hunter (class 3) from the diminishing values
10 and 1000 stays below the cap of 145.560408. -/
theorem CalculateDiminishingReturns_bounded_monotone_witness :
    (m_diminishing_k[toUInt32 (((3 : Nat) : Int) - 1)]? = some (988 / 1000) ∧
        parry_cap[toUInt32 (((3 : Nat) : Int) - 1)]? = some (145560408 / 1000000)) ∧
      ∃ dx dy, CalculateDiminishingReturns parry_cap 3 0 10 = some dx ∧
        CalculateDiminishingReturns parry_cap 3 0 1000 = some dy ∧
        dx ≤ dy ∧ dy < 145560408 / 1000000 := by
  refine ⟨⟨rfl, rfl⟩, ?_⟩
  obtain ⟨dx, dy, h1, h2, _, _, _, h6, h7, _⟩ :=
    CalculateDiminishingReturns_bounded_monotone parry_cap 3 (145560408 / 1000000) (988 / 1000)
      10 1000 rfl rfl (by norm_num) (by norm_num) (by norm_num) (by norm_num)
  exact ⟨dx, dy, h1, h2, h6, h7⟩

/-! ## The weapon damage range -/

/-- The last step of `CalculateMinMaxDamage` keeps the order of the two ends. -/
theorem finish_le {wMin wMax baseValue basePct totalValue totalPct : ℚ} (h : wMin ≤ wMax)
    (hbp : 0 ≤ basePct) (htp : 0 ≤ totalPct) :
    ((wMin + baseValue) * basePct + totalValue) * totalPct ≤
      ((wMax + baseValue) * basePct + totalValue) * totalPct := by
  apply mul_le_mul_of_nonneg_right _ htp
  have := mul_le_mul_of_nonneg_right (add_le_add_right h baseValue) hbp
  linarith

/-- Outside the bear form `CalculateMinMaxDamage` keeps the order of the damage
range: with a weapon range in order, base damages in order, a positive weapon
speed and percentages that are not negative, minDamage ≤ maxDamage. -/
theorem CalculateMinMaxDamage_order_unless_bear (P : PlayerStats) (attType : WeaponAttackType)
    (normalized addTotalPct : Bool)
    (hform : ¬ (P.IsInFeralForm = true ∧ P.GetShapeshiftForm = ShapeshiftForm.FORM_BEAR))
    (hrange : P.GetWeaponDamageRange attType WeaponDamageRange.MINDAMAGE ≤
      P.GetWeaponDamageRange attType WeaponDamageRange.MAXDAMAGE)
    (hbase : P.BASE_MINDAMAGE ≤ P.BASE_MAXDAMAGE)
    (hdelay : ∀ d, P.GetWeaponForAttack = some d → 1000 ≤ d)
    (htime : P.GetWeaponForAttack = none → 0 < P.BASE_ATTACK_TIME)
    (hbp : ∀ um, 0 ≤ P.GetPctModifierValue um UnitModifierType.BASE_PCT)
    (htp : ∀ um, 0 ≤ P.GetPctModifierValue um UnitModifierType.TOTAL_PCT) :
    (Player.CalculateMinMaxDamage P attType normalized addTotalPct).1 ≤
      (Player.CalculateMinMaxDamage P attType normalized addTotalPct).2 := by
  have htotal : ∀ um, (0 : ℚ) ≤
      (if addTotalPct then P.GetPctModifierValue um UnitModifierType.TOTAL_PCT else 1) := by
    intro um
    split_ifs
    · exact htp um
    · norm_num
  have hspeed : (0 : ℚ) <
      (match P.GetWeaponForAttack with
        | some delay => ((delay / 1000 : Nat) : ℚ)
        | none => (P.BASE_ATTACK_TIME : ℚ) / 1000) := by
    cases hw : P.GetWeaponForAttack with
    | none =>
      have := htime hw
      simp only
      positivity
    | some d =>
      have h1 : 1000 ≤ d := hdelay d hw
      have h2 : 0 < d / 1000 := Nat.div_pos h1 (by norm_num)
      simp only
      exact_mod_cast h2
  unfold Player.CalculateMinMaxDamage
  by_cases hf : P.IsInFeralForm = true
  · by_cases hcat : P.GetShapeshiftForm = ShapeshiftForm.FORM_CAT
    · simp only [if_pos hf, if_pos hcat]
      exact finish_le ((div_le_div_iff_of_pos_right hspeed).2 hrange) (hbp _) (htotal _)
    · have hbear : ¬ P.GetShapeshiftForm = ShapeshiftForm.FORM_BEAR := fun h => hform ⟨hf, h⟩
      simp only [if_pos hf, if_neg hcat, if_neg hbear]
      exact finish_le hrange (hbp _) (htotal _)
  · by_cases hcan : (!P.CanUseAttackType attType) = true
    · by_cases hatt : attType ≠ WeaponAttackType.BASE_ATTACK
      · simp only [if_neg hf, if_pos hcan, if_pos hatt]
        exact le_refl _
      · simp only [if_neg hf, if_pos hcan, if_neg hatt]
        exact finish_le hbase (hbp _) (htotal _)
    · simp only [if_neg hf, if_neg hcan]
      exact finish_le hrange (hbp _) (htotal _)

/-- C24 fails on the code: in bear form, for a weapon that deals 100 to 110 with
a delay of 2000 and a player without modifiers, CalculateMinMaxDamage leaves
minDamage at 90 and maxDamage at 89, while the same readings give 50 to 55 in
cat form and 100 to 110 in no form.  The bear branch computes the new
weaponMaxDamage from the weaponMinDamage it has just replaced. -/
theorem CalculateMinMaxDamage_bear_order :
    Player.CalculateMinMaxDamage (plainStats true ShapeshiftForm.FORM_BEAR)
        WeaponAttackType.BASE_ATTACK false true = (90, 89) ∧
      Player.CalculateMinMaxDamage (plainStats true ShapeshiftForm.FORM_CAT)
        WeaponAttackType.BASE_ATTACK false true = (50, 55) ∧
      Player.CalculateMinMaxDamage (plainStats false ShapeshiftForm.FORM_NONE)
        WeaponAttackType.BASE_ATTACK false true = (100, 110) ∧
      ¬ ((Player.CalculateMinMaxDamage (plainStats true ShapeshiftForm.FORM_BEAR)
          WeaponAttackType.BASE_ATTACK false true).1 ≤
        (Player.CalculateMinMaxDamage (plainStats true ShapeshiftForm.FORM_BEAR)
          WeaponAttackType.BASE_ATTACK false true).2) := by
  have hbear : Player.CalculateMinMaxDamage (plainStats true ShapeshiftForm.FORM_BEAR)
      WeaponAttackType.BASE_ATTACK false true = (90, 89) := by
    simp [Player.CalculateMinMaxDamage, plainStats]
    norm_num
  refine ⟨hbear, ?_, ?_, ?_⟩
  · simp [Player.CalculateMinMaxDamage, plainStats]
    norm_num
  · simp [Player.CalculateMinMaxDamage, plainStats]
  · rw [hbear]
    norm_num

end TrinityCore
